import Mathlib

/-!
mailtracker: the account-suspension engine

A shallow embedding of the command dispatcher (`bot/bot.go`), its shared state
(`bot/types.go`) and the dual-protocol control-panel client (`whm/email.go`,
`whm/response.go`), followed by theorems about them.

Conventions of the embedding

* a Go `string` is a Lean `String`; positions are counted in characters.  Every
  byte the code compares against (`'@'`, `'%'`, digits, signs) is ASCII, and no
  multi-byte UTF-8 sequence contains an ASCII byte, so cutting at a character
  position and cutting at the corresponding byte position give the same text;
* a Go `error` is an `Option String`: `none` is `nil`, `some m` is an error whose
  `Error()` text is `m`;
* a Go runtime panic (index or slice bound out of range) is the outer `none` of
  an `Option` result;
* a Go `map[string]V` is an association list; `mapSet` overwrites the entry of
  an existing key and appends a new one, `mapDelete` drops every entry of the
  key.  The iteration order of a Go map is unspecified; the list order stands
  for whatever order one run picks;
* machine integers are `Int` with explicit wrap-around where a conversion
  occurs (`int16`);
* the network, the clock and the missing collaborator `UserDataInfo` are
  oracles gathered in a `World` / `Env` record; every outbound call is recorded
  in a trace so that "attempted" can be stated;
* logging (`Log(...)`) has no influence on results or state and is left out.
-/

set_option autoImplicit false

/-! ## Go runtime and standard library fragments -/

namespace strconv

/-- The two error kinds of `strconv.NumError`. -/
inductive NumErr where
  | ErrSyntax
  | ErrRange
  deriving DecidableEq, Repr

/-- The digit loop of `strconv.ParseUint(s, 10, bitSize)`: `n` is the value so
far; a non-digit is a syntax error, a value above `maxVal` (or above `uint64`)
is a range error that returns `maxVal` at once, without reading further. -/
def parseUintLoop (bitSize : Nat) : Nat → List Char → Nat × Option NumErr
  | n, [] => (n, none)
  | n, c :: cs =>
    if '0' ≤ c ∧ c ≤ '9' then
      let d := c.toNat - '0'.toNat
      let maxVal := 2 ^ bitSize - 1
      if n ≥ (2 ^ 64 - 1) / 10 + 1 then (maxVal, some .ErrRange)
      else
        let n1 := n * 10 + d
        if n1 ≥ 2 ^ 64 ∨ n1 > maxVal then (maxVal, some .ErrRange)
        else parseUintLoop bitSize n1 cs
    else (0, some .ErrSyntax)

/-- Go `strconv.ParseUint(s, 10, bitSize)` for `0 < bitSize ≤ 64`. -/
def ParseUint (s : List Char) (bitSize : Nat) : Nat × Option NumErr :=
  match s with
  | [] => (0, some .ErrSyntax)
  | _ => parseUintLoop bitSize 0 s

/-- Go `strconv.ParseInt(s, 10, bitSize)` for `0 < bitSize ≤ 64`: an optional
sign, then `ParseUint`, then the signed range check. -/
def ParseInt (s : String) (bitSize : Nat) : Int × Option NumErr :=
  match s.toList with
  | [] => (0, some .ErrSyntax)
  | c :: cs =>
    let neg := c = '-'
    let body := if c = '+' ∨ c = '-' then cs else c :: cs
    match ParseUint body bitSize with
    | (_, some .ErrSyntax) => (0, some .ErrSyntax)
    | (un, _) =>
      let cutoff := 2 ^ (bitSize - 1)
      if ¬ neg ∧ un ≥ cutoff then ((cutoff : Nat) - 1, some .ErrRange)
      else if neg ∧ un > cutoff then (-(cutoff : Nat), some .ErrRange)
      else (if neg then -(un : Int) else (un : Int), none)

/-- Go `strconv.Itoa` and the `%d` verb: decimal digits, `-` in front of a
negative number. -/
def Itoa (n : Int) : String :=
  if n < 0 then "-" ++ Nat.repr n.natAbs else Nat.repr n.toNat

end strconv

/-- Go conversion `int16(v)` of a wider signed integer: wrap-around to sixteen
bits, two's complement. -/
def int16 (v : Int) : Int := (v + 32768) % 65536 - 32768

namespace strings

/-- Go `strings.Index(s, sep)` for a one-character separator: position of the
first occurrence counted from `i`, or `-1`. -/
def indexFrom (c : Char) : List Char → Nat → Int
  | [], _ => -1
  | x :: xs, i => if x = c then (i : Int) else indexFrom c xs (i + 1)

/-- Go `strings.Index(s, sep)` for the one-character separator `c`. -/
def Index (s : String) (c : Char) : Int := indexFrom c s.toList 0

/-- Go `strings.Join(elems, sep)`. -/
def Join (elems : List String) (sep : String) : String := sep.intercalate elems

/-- Go `strings.Contains(s, substr)` as a proposition: `substr` occurs in `s`
as a contiguous block. -/
def Contains (s substr : String) : Prop := substr.toList <:+: s.toList

instance (s substr : String) : Decidable (Contains s substr) := by
  unfold Contains; infer_instance

end strings

/-- The Go slice expression `s[lo:]` on a string: `none` stands for the runtime
panic "slice bounds out of range". -/
def sliceFrom (s : String) (lo : Int) : Option String :=
  if 0 ≤ lo ∧ lo ≤ (s.length : Int) then some (String.mk (s.toList.drop lo.toNat)) else none

/-- The Go index expression `xs[i]` on a slice: `none` stands for the runtime
panic "index out of range". -/
def index {α : Type} (xs : List α) (i : Nat) : Option α := xs.get? i

namespace fmt

/-- The flag characters that `doPrintf` skips right after a `%`. -/
def isFlag (c : Char) : Bool :=
  c = '#' || c = '0' || c = '+' || c = '-' || c = ' '

/-- Go `fmt.parsenum`: reads a decimal number; returns the number, whether one
was read, and the rest of the format.  A number above a million makes the scan
give up and jump to the end of the format. -/
def parsenumLoop : Nat → Bool → List Char → Nat × Bool × List Char
  | num, isnum, [] => (num, isnum, [])
  | num, isnum, c :: cs =>
    if '0' ≤ c ∧ c ≤ '9' then
      if num > 1000000 then (0, false, [])
      else parsenumLoop (num * 10 + (c.toNat - '0'.toNat)) true cs
    else (num, isnum, c :: cs)

/-- Go `fmt.parsenum` from the start of `s`. -/
def parsenum (s : List Char) : Nat × Bool × List Char := parsenumLoop 0 false s

/-- Splits at the first `]`: the text before it and the text after it. -/
def splitAtClose : List Char → Option (List Char × List Char)
  | [] => none
  | c :: cs =>
    if c = ']' then some ([], cs)
    else match splitAtClose cs with
      | none => none
      | some (content, after) => some (c :: content, after)

/-- Go `(*pp).argNumber` when the argument list is empty: returns the rest of
the format, whether a well-formed `[n]` was read (`afterIndex`), and whether a
`[` was met at all (which clears `goodArgNum`, since no index is below the
number of arguments, zero). -/
def argNumber (s : List Char) : List Char × Bool × Bool :=
  match s with
  | '[' :: tl =>
    if tl.length + 1 < 3 then (tl, false, true)
    else match splitAtClose tl with
      | none => (tl, false, true)
      | some (content, after) =>
        match parsenum content with
        | (_, ok, rest) => if ok ∧ rest = [] then (after, true, true) else (after, false, true)
  | _ => (s, false, false)

/-- One verb of `doPrintf` when the argument list is empty; `s` is the format
right after the `%`.  Returns what is written and the rest of the format (the
empty rest after `%!(NOVERB)`, where the loop breaks). -/
def verbStep (s : List Char) : List Char × List Char :=
  let s1 := s.dropWhile isFlag
  match argNumber s1 with
  | (s2, afterIndex1, bad1) =>
  -- width
  let w : List Char × List Char × Bool × Bool :=
    match s2 with
    | '*' :: t => ("%!(BADWIDTH)".toList, t, false, bad1)
    | _ =>
      match parsenum s2 with
      | (_, widPresent, t) => ([], t, afterIndex1, bad1 || (afterIndex1 && widPresent))
  match w with
  | (out1, s3, afterIndex2, bad2) =>
  -- precision
  let p : List Char × List Char × Bool × Bool :=
    match s3 with
    | '.' :: t =>
      match argNumber t with
      | (t1, afterIndexP, badP) =>
        match t1 with
        | '*' :: t2 => ("%!(BADPREC)".toList, t2, false, bad2 || afterIndex2 || badP)
        | _ =>
          match parsenum t1 with
          | (_, _, t2) => ([], t2, afterIndexP, bad2 || afterIndex2 || badP)
    | _ => ([], s3, afterIndex2, bad2)
  match p with
  | (out2, s4, afterIndex3, bad3) =>
  let a : List Char × Bool :=
    if afterIndex3 then (s4, bad3)
    else match argNumber s4 with
      | (t, _, b) => (t, bad3 || b)
  match a with
  | (s5, bad4) =>
  match s5 with
  | [] => (out1 ++ out2 ++ "%!(NOVERB)".toList, [])
  | verb :: rest =>
    if verb = '%' then (out1 ++ out2 ++ ['%'], rest)
    else if bad4 then (out1 ++ out2 ++ "%!".toList ++ [verb] ++ "(BADINDEX)".toList, rest)
    else (out1 ++ out2 ++ "%!".toList ++ [verb] ++ "(MISSING)".toList, rest)

/-- The format loop of `doPrintf` when the argument list is empty.  `skip` is
the number of characters of the format that the last verb has already
consumed. -/
def doPrintf : Nat → List Char → List Char
  | _, [] => []
  | skip + 1, _ :: cs => doPrintf skip cs
  | 0, c :: cs =>
    if c = '%' then
      match verbStep cs with
      | (out, rest) => out ++ doPrintf (cs.length - rest.length) cs
    else c :: doPrintf 0 cs

/-- Go `fmt.Sprintf(format)` with no further argument; also the text of the
error made by `fmt.Errorf(format)`. -/
def Sprintf0 (format : String) : String := String.mk (doPrintf 0 format.toList)

end fmt

/-! ## Package `whm`: response envelopes and the suspension client -/

namespace whm

/-- The `result` object of the legacy-proxy envelope (`CPanelApiResult`); a
`nil` pointer to a slice is `none`.  The `metadata` field is only logged and
is left out. -/
structure CPanelApiResult where
  Warnings : Option (List String)
  Errors : Option (List String)
  Messages : Option (List String)
  Data : Int
  Status : Int
  deriving DecidableEq, Repr

/-- The legacy-proxy envelope (`CPanelApiResponse`). -/
structure CPanelApiResponse where
  Func : String
  Result : CPanelApiResult
  deriving DecidableEq, Repr

/-- Method `CPanelApiResult.ErrorMessage`. -/
def CPanelApiResult.ErrorMessage (a : CPanelApiResult) : String :=
  match a.Errors with
  | none => ""
  | some errors => strings.Join errors ", "

/-- The modern UAPI envelope (`UAPIResponse`); the untyped `data` and the
`metadata` fields are never read by the client and are left out. -/
structure UAPIResponse where
  Func : String
  Module : String
  Status : Int
  StatusMsg : String
  Errors : Option (List String)
  Messages : Option (List String)
  Warnings : Option (List String)
  deriving DecidableEq, Repr

/-- Method `UAPIResponse.IsSuccess`. -/
def UAPIResponse.IsSuccess (r : UAPIResponse) : Bool := r.Status = 1

/-- Method `UAPIResponse.ErrorMessage`. -/
def UAPIResponse.ErrorMessage (r : UAPIResponse) : String :=
  match r.Errors with
  | none => if r.StatusMsg ≠ "" then r.StatusMsg else ""
  | some errors =>
    if errors.length = 0 then (if r.StatusMsg ≠ "" then r.StatusMsg else "")
    else strings.Join errors ", "

/-- What one HTTP exchange with the panel can come to, step by step as the
client code checks it: the dial, building the request, the round trip, reading
the body, decoding the JSON body into the envelope type `ρ`. -/
inductive Reply (ρ : Type) where
  | dialError (err : String)
  | requestCreationError (err : String)
  | requestError (err : String)
  | readBodyError (err : String)
  | unmarshalError (err : String)
  | decoded (record : ρ)

/-- An outbound call made by the client. -/
inductive Call where
  | userDataInfo (domain : String)
  | modernUAPI (function email cpanelUser : String)
  | legacyProxy (function email cpanelUser : String)
  deriving DecidableEq, Repr

/-- The surroundings of the client: the package variable `PreferModernUAPI`,
the account lookup `UserDataInfo` (a function of this package that is not among
the sources; it maps a domain to the owning panel user or fails), and the
panel's answers on the modern port (2083) and on the legacy port (2087) for a
given API function, email and panel user. -/
structure World where
  PreferModernUAPI : Bool
  UserDataInfo : String → Except String String
  modernUAPI : String → String → String → Reply UAPIResponse
  legacyProxy : String → String → String → Reply CPanelApiResponse

/-- What a client entry point hands back: the returned `error` and the
outbound calls it made, in order. -/
structure Outcome where
  err : Option String
  calls : List Call
  deriving DecidableEq, Repr

/-- The body shared by `suspendEmailModernUAPI` and `unsuspendEmailModernUAPI`,
which differ in the API function name only. -/
def modernUAPI (w : World) (function email cpanelUser : String) : Option String :=
  match w.modernUAPI function email cpanelUser with
  | .dialError err => some ("CPanelDialer error: " ++ err)
  | .requestCreationError err => some ("request creation error: " ++ err)
  | .requestError err => some ("request error: " ++ err)
  | .readBodyError err => some ("read body error: " ++ err)
  | .unmarshalError err => some ("json unmarshal error: " ++ err)
  | .decoded record =>
    if record.IsSuccess then none
    else some ("UAPI error: " ++ record.ErrorMessage)

/-- Function `suspendEmailModernUAPI`. -/
def suspendEmailModernUAPI (w : World) (email cpanelUser : String) : Option String :=
  modernUAPI w "suspend_outgoing" email cpanelUser

/-- Function `unsuspendEmailModernUAPI`. -/
def unsuspendEmailModernUAPI (w : World) (email cpanelUser : String) : Option String :=
  modernUAPI w "unsuspend_outgoing" email cpanelUser

/-- The body shared by `suspendEmailLegacy` and `unsuspendEmailLegacy` (the
former also sleeps one second first).  Every failure before the envelope is
decoded is returned as it is; a decoded envelope is a success when
`result.status` is 1, otherwise the error is `fmt.Errorf(ErrorMessage())`,
the message being passed as the format. -/
def legacyProxy (w : World) (function email cpanelUser : String) : Option String :=
  match w.legacyProxy function email cpanelUser with
  | .dialError err => some err
  | .requestCreationError err => some err
  | .requestError err => some err
  | .readBodyError err => some err
  | .unmarshalError err => some err
  | .decoded record =>
    if record.Result.Status = 1 then none
    else some (fmt.Sprintf0 record.Result.ErrorMessage)

/-- Function `suspendEmailLegacy`. -/
def suspendEmailLegacy (w : World) (email cpanelUser : String) : Option String :=
  legacyProxy w "suspend_outgoing" email cpanelUser

/-- Function `unsuspendEmailLegacy`. -/
def unsuspendEmailLegacy (w : World) (email cpanelUser : String) : Option String :=
  legacyProxy w "unsuspend_outgoing" email cpanelUser

/-- The expression `email[strings.Index(email, "@")+1:]`. -/
def domainOf (email : String) : Option String :=
  sliceFrom email (strings.Index email '@' + 1)

/-- Function `SuspendEmail`; the outer `none` is a runtime panic. -/
def SuspendEmail (w : World) (email : String) : Option Outcome :=
  match domainOf email with
  | none => none
  | some domain =>
    match w.UserDataInfo domain with
    | .error err => some ⟨some err, [.userDataInfo domain]⟩
    | .ok user =>
      if w.PreferModernUAPI then
        match suspendEmailModernUAPI w email user with
        | none =>
          some ⟨none, [.userDataInfo domain, .modernUAPI "suspend_outgoing" email user]⟩
        | some _ =>
          some ⟨suspendEmailLegacy w email user,
            [.userDataInfo domain, .modernUAPI "suspend_outgoing" email user,
             .legacyProxy "suspend_outgoing" email user]⟩
      else
        some ⟨suspendEmailLegacy w email user,
          [.userDataInfo domain, .legacyProxy "suspend_outgoing" email user]⟩

/-- Function `UnSuspendEmail`; the outer `none` is a runtime panic. -/
def UnSuspendEmail (w : World) (email : String) : Option Outcome :=
  match domainOf email with
  | none => none
  | some domain =>
    match w.UserDataInfo domain with
    | .error err => some ⟨some err, [.userDataInfo domain]⟩
    | .ok user =>
      if w.PreferModernUAPI then
        match unsuspendEmailModernUAPI w email user with
        | none =>
          some ⟨none, [.userDataInfo domain, .modernUAPI "unsuspend_outgoing" email user]⟩
        | some _ =>
          some ⟨unsuspendEmailLegacy w email user,
            [.userDataInfo domain, .modernUAPI "unsuspend_outgoing" email user,
             .legacyProxy "unsuspend_outgoing" email user]⟩
      else
        some ⟨unsuspendEmailLegacy w email user,
          [.userDataInfo domain, .legacyProxy "unsuspend_outgoing" email user]⟩

end whm

/-! ## Package `bot`: shared state and the command dispatcher -/

/-- Lookup `m[k]` in a Go map. -/
def mapGet {α : Type} (m : List (String × α)) (k : String) : Option α :=
  match m with
  | [] => none
  | (k', v) :: rest => if k' = k then some v else mapGet rest k

/-- Go assignment `m[k] = v`. -/
def mapSet {α : Type} (m : List (String × α)) (k : String) (v : α) : List (String × α) :=
  match m with
  | [] => [(k, v)]
  | (k', v') :: rest => if k' = k then (k, v) :: rest else (k', v') :: mapSet rest k v

/-- Go `delete(m, k)`. -/
def mapDelete {α : Type} (m : List (String × α)) (k : String) : List (String × α) :=
  m.filter (fun kv => decide (kv.1 ≠ k))

/-- The keys of a Go map. -/
def mapKeys {α : Type} (m : List (String × α)) : List String := m.map Prod.fst

namespace bot

/-- Struct `SuspendedInfo`; a `time.Time` is a number of seconds. -/
structure SuspendedInfo where
  Email : String
  Domain : String
  SuspendedAt : Nat
  Reason : String
  RatePerMin : Int
  RatePerHour : Int
  deriving DecidableEq, Repr

/-- Struct `RuntimeConfig`; both fields are `int16`. -/
structure RuntimeConfig where
  MaxPerMin : Int
  MaxPerHour : Int
  deriving DecidableEq, Repr

/-- Struct `State`. -/
structure State where
  SuspendedEmails : List (String × SuspendedInfo)
  Whitelist : List (String × Bool)
  Config : RuntimeConfig
  deriving DecidableEq, Repr

/-- Type `CommandType`, a Go `int`. -/
abbrev CommandType := Int

def CmdUnknown : CommandType := 0
def CmdStatus : CommandType := 1
def CmdSuspend : CommandType := 2
def CmdUnsuspend : CommandType := 3
def CmdList : CommandType := 4
def CmdStats : CommandType := 5
def CmdConfig : CommandType := 6
def CmdSet : CommandType := 7
def CmdWhitelistAdd : CommandType := 8
def CmdWhitelistRemove : CommandType := 9
def CmdWhitelistList : CommandType := 10

/-- Struct `Command`; the field `Type` is written `Type_`. -/
structure Command where
  Type_ : CommandType
  Args : List String
  Platform : String
  UserID : String
  ChatID : String
  deriving DecidableEq, Repr

/-- The surroundings of one `handleCommand` call: the panel as the client sees
it during the call, the clock reading `time.Now()`, the rendering of
`time.Since(e.started).Round(time.Second)`, and the rendering of a moment by
`Format("2006-01-02 15:04")` in the local time zone. -/
structure Env where
  panel : whm.World
  now : Nat
  uptime : String
  formatTime : Nat → String

/-- The state built by `NewEngine`. -/
def initialState : State :=
  { SuspendedEmails := [], Whitelist := [], Config := { MaxPerMin := 8, MaxPerHour := 100 } }

/-- Function `FormatStatusMessage`. -/
def FormatStatusMessage (uptime : String) (suspendedCount whitelistCount : Int) : String :=
  "📊 *Eximmon Status*\n\n" ++ ("⏱ Uptime: " ++ uptime ++ "\n")
    ++ ("🚫 Suspended: " ++ strconv.Itoa suspendedCount ++ " emails\n")
    ++ ("✅ Whitelisted: " ++ strconv.Itoa whitelistCount ++ " emails")

/-- The `CmdList` loop: one line per entry of the map. -/
def listLines (env : Env) (m : List (String × SuspendedInfo)) : String :=
  m.foldl (fun sb kv => sb ++ ("• `" ++ kv.1 ++ "` - " ++ env.formatTime kv.2.SuspendedAt ++ "\n")) ""

/-- The `CmdWhitelistList` loop: one line per entry of the map. -/
def whitelistLines (m : List (String × Bool)) : String :=
  m.foldl (fun sb kv => sb ++ ("• `" ++ kv.1 ++ "`\n")) ""

/-- Method `Engine.handleCommand`: the response and the state after the call;
`none` is a runtime panic (an index out of range, or a panic of the client). -/
def handleCommand (env : Env) (cmd : Command) (state : State) : Option (String × State) :=
  if cmd.Type_ = CmdStatus then
    some (FormatStatusMessage env.uptime state.SuspendedEmails.length state.Whitelist.length,
      state)
  else if cmd.Type_ = CmdSuspend then
    match index cmd.Args 0 with
    | none => none
    | some email =>
      match whm.SuspendEmail env.panel email with
      | none => none
      | some ⟨some err, _⟩ => some ("❌ Failed to suspend " ++ email ++ ": " ++ err, state)
      | some ⟨none, _⟩ =>
        some ("✅ Suspended: `" ++ email ++ "`",
          { state with
            SuspendedEmails := mapSet state.SuspendedEmails email
              { Email := email, Domain := "", SuspendedAt := env.now,
                Reason := "Manual suspension via bot", RatePerMin := 0, RatePerHour := 0 } })
  else if cmd.Type_ = CmdUnsuspend then
    match index cmd.Args 0 with
    | none => none
    | some email =>
      match whm.UnSuspendEmail env.panel email with
      | none => none
      | some ⟨some err, _⟩ => some ("❌ Failed to unsuspend " ++ email ++ ": " ++ err, state)
      | some ⟨none, _⟩ =>
        some ("✅ Unsuspended: `" ++ email ++ "`",
          { state with SuspendedEmails := mapDelete state.SuspendedEmails email })
  else if cmd.Type_ = CmdList then
    if state.SuspendedEmails.length = 0 then some ("📋 No suspended emails", state)
    else some ("📋 *Suspended Emails:*\n\n" ++ listLines env state.SuspendedEmails, state)
  else if cmd.Type_ = CmdStats then
    match index cmd.Args 0 with
    | none => none
    | some email => some ("📊 Stats for `" ++ email ++ "` - Feature coming soon", state)
  else if cmd.Type_ = CmdConfig then
    some ("⚙️ *Configuration:*\n• Max Per Min: " ++ strconv.Itoa state.Config.MaxPerMin
      ++ "\n• Max Per Hour: " ++ strconv.Itoa state.Config.MaxPerHour, state)
  else if cmd.Type_ = CmdSet then
    match index cmd.Args 0 with
    | none => none
    | some key =>
      match index cmd.Args 1 with
      | none => none
      | some arg =>
        match strconv.ParseInt arg 16 with
        | (_, some _) => some ("❌ Invalid value", state)
        | (value, none) =>
          if key = "max_per_min" ∨ key = "MAX_PER_MIN" then
            some ("✅ Set max_per_min to " ++ strconv.Itoa value,
              { state with Config := { state.Config with MaxPerMin := int16 value } })
          else if key = "max_per_hour" ∨ key = "MAX_PER_HOUR" then
            some ("✅ Set max_per_hour to " ++ strconv.Itoa value,
              { state with Config := { state.Config with MaxPerHour := int16 value } })
          else some ("❌ Unknown config key: " ++ key, state)
  else if cmd.Type_ = CmdWhitelistAdd then
    match index cmd.Args 0 with
    | none => none
    | some email =>
      some ("✅ Added to whitelist: `" ++ email ++ "`",
        { state with Whitelist := mapSet state.Whitelist email true })
  else if cmd.Type_ = CmdWhitelistRemove then
    match index cmd.Args 0 with
    | none => none
    | some email =>
      some ("✅ Removed from whitelist: `" ++ email ++ "`",
        { state with Whitelist := mapDelete state.Whitelist email })
  else if cmd.Type_ = CmdWhitelistList then
    if state.Whitelist.length = 0 then some ("📋 Whitelist is empty", state)
    else some ("📋 *Whitelisted Emails:*\n\n" ++ whitelistLines state.Whitelist, state)
  else
    some ("❓ Unknown command. Try /status, /list, /suspend, /unsuspend, /config, /whitelist",
      state)

/-- Runs a sequence of commands, each in its own surroundings, from `state`;
`none` as soon as one call panics. -/
def run : List (Env × Command) → State → Option State
  | [], state => some state
  | (env, cmd) :: rest, state =>
    match handleCommand env cmd state with
    | none => none
    | some (_, state') => run rest state'

/-- A state is reachable when some sequence of commands leads to it from the
state built by `NewEngine`. -/
def Reachable (state : State) : Prop :=
  ∃ cmds : List (Env × Command), run cmds initialState = some state

end bot

/-! ## Package `bot`: the command parser and the message texts -/

namespace unicode

/-- Go `unicode.IsSpace`: the Latin-1 spaces `\t \n \v \f \r`, space, U+0085,
U+00A0, and beyond Latin-1 the characters of the `White_Space` property. -/
def IsSpace (r : Char) : Bool :=
  let n := r.toNat
  if n ≤ 0xFF then
    n = 0x09 || n = 0x0A || n = 0x0B || n = 0x0C || n = 0x0D || n = 0x20 || n = 0x85 || n = 0xA0
  else
    n = 0x1680 || (0x2000 ≤ n && n ≤ 0x200A) || n = 0x2028 || n = 0x2029 || n = 0x202F
      || n = 0x205F || n = 0x3000

end unicode

namespace strings

/-- Go `strings.TrimSpace`: drops the leading and the trailing white space. -/
def TrimSpace (s : String) : String :=
  String.mk (((s.toList.dropWhile unicode.IsSpace).reverse.dropWhile unicode.IsSpace).reverse)

/-- Go `strings.HasPrefix(s, p)`. -/
def HasPrefix (s p : String) : Bool := p.toList.isPrefixOf s.toList

/-- The loop of `strings.Fields`: `cur` holds, last character first, the field
being read. -/
def fieldsLoop : List Char → List Char → List String
  | [], cur => if cur = [] then [] else [String.mk cur.reverse]
  | c :: cs, cur =>
    if unicode.IsSpace c then
      if cur = [] then fieldsLoop cs [] else String.mk cur.reverse :: fieldsLoop cs []
    else fieldsLoop cs (c :: cur)

/-- Go `strings.Fields`: the maximal runs of characters that are not white
space. -/
def Fields (s : String) : List String := fieldsLoop s.toList []

end strings

namespace bot

/-- The `switch` of `ParseCommand` on the command word `cmd := parts[0]` and the
arguments `args := parts[1:]`.  The cases are tried in order; the slice
`args[1:]` is taken where the length allows it, and `args[0]` is read only after
`len(args)` was tested. -/
def parseSwitch (cmd : String) (args : List String) : Command :=
  let unknown : Command :=
    { Type_ := CmdUnknown, Args := [], Platform := "", UserID := "", ChatID := "" }
  let mk (t : CommandType) (args : List String) : Command :=
    { Type_ := t, Args := args, Platform := "", UserID := "", ChatID := "" }
  if cmd = "/status" then mk CmdStatus args
  else if cmd = "/suspend" ∧ args.length ≥ 1 then mk CmdSuspend args
  else if cmd = "/unsuspend" ∧ args.length ≥ 1 then mk CmdUnsuspend args
  else if cmd = "/list" then mk CmdList args
  else if cmd = "/stats" ∧ args.length ≥ 1 then mk CmdStats args
  else if cmd = "/config" then mk CmdConfig args
  else if cmd = "/set" ∧ args.length ≥ 2 then mk CmdSet args
  else if cmd = "/whitelist" then
    if args.length ≥ 2 ∧ index args 0 = some "add" then mk CmdWhitelistAdd (args.drop 1)
    else if args.length ≥ 2 ∧ index args 0 = some "remove" then
      mk CmdWhitelistRemove (args.drop 1)
    else if args.length = 1 ∧ index args 0 = some "list" then mk CmdWhitelistList args
    else unknown
  else unknown

/-- Function `ParseCommand`: the text is trimmed, must start with `/`, and is
cut into fields; the first field is the command word. -/
def ParseCommand (text : String) : Command :=
  let text := strings.TrimSpace text
  if ¬ strings.HasPrefix text "/" then
    { Type_ := CmdUnknown, Args := [], Platform := "", UserID := "", ChatID := "" }
  else
    match strings.Fields text with
    | [] => { Type_ := CmdUnknown, Args := [], Platform := "", UserID := "", ChatID := "" }
    | cmd :: args => parseSwitch cmd args

/-- Function `FormatSuspendMessage`. -/
def FormatSuspendMessage (info : SuspendedInfo) : String :=
  "🚨 *SPAM DETECTED*\n\n"
    ++ ("📧 Email: `" ++ info.Email ++ "`\n")
    ++ ("🌐 Domain: `" ++ info.Domain ++ "`\n")
    ++ ("📊 Rate: " ++ strconv.Itoa info.RatePerMin ++ " emails/min\n")
    ++ ("📈 Total: " ++ strconv.Itoa info.RatePerHour ++ " emails/hour\n\n")
    ++ "✅ Action: *SUSPENDED*\n\n"
    ++ ("Reply `/unsuspend " ++ info.Email ++ "` to restore")

/-- Function `FormatUnsuspendMessage`. -/
def FormatUnsuspendMessage (email : String) : String :=
  "✅ Email unsuspended: `" ++ email ++ "`"

/-! ## Package `bot`: the admin gate of the two transports -/

/-- Method `TelegramBot.requiresAdmin`. -/
def TelegramBot.requiresAdmin (cmdType : CommandType) : Bool :=
  if cmdType = CmdStatus ∨ cmdType = CmdList ∨ cmdType = CmdStats ∨ cmdType = CmdConfig
      ∨ cmdType = CmdWhitelistList then false
  else true

/-- Method `SlackBot.requiresAdmin`. -/
def SlackBot.requiresAdmin (cmdType : CommandType) : Bool :=
  if cmdType = CmdStatus ∨ cmdType = CmdList ∨ cmdType = CmdStats ∨ cmdType = CmdConfig
      ∨ cmdType = CmdWhitelistList then false
  else true

/-! ## Package `bot`: notification fan-out -/

/-- A started transport (`*TelegramBot` or `*SlackBot`) as the notification
path sees it: `ready` says that the API client is there and a notification
destination is configured; `sendMessage` is the outcome of posting a text to
that destination. -/
structure Transport where
  ready : Bool
  sendMessage : String → Option String

/-- Methods `TelegramBot.SendNotification` and `SlackBot.SendNotification`: the
returned error and the texts handed to `sendMessage`. -/
def Transport.SendNotification (b : Transport) (message : String) :
    Option String × List String :=
  if ¬ b.ready then (none, []) else (b.sendMessage message, [message])

/-- Struct `Engine`: the two transports (a `nil` pointer is `none`) and the
shared state; the start time and the mutex are left out. -/
structure Engine where
  telegram : Option Transport
  slack : Option Transport
  state : State

/-- What a notification entry point leaves behind: the engine after the call,
the returned `error`, and the texts handed to a transport's `sendMessage`, each
with the platform, in order. -/
structure Notified where
  engine : Option Engine
  err : Option String
  sent : List (String × String)

/-- The fan-out shared by `Engine.NotifySuspension` and `Engine.NotifyUnsuspend`
after the state update: telegram first, then slack; `err` is overwritten by each
transport that fails. -/
def fanOut (e : Engine) (message : String) : Option String × List (String × String) :=
  let err : Option String := none
  let r1 : Option String × List (String × String) :=
    match e.telegram with
    | none => (err, [])
    | some tg =>
      match tg.SendNotification message with
      | (some e1, sent) => (some e1, sent.map (fun m => ("telegram", m)))
      | (none, sent) => (err, sent.map (fun m => ("telegram", m)))
  match e.slack with
  | none => r1
  | some sl =>
    match sl.SendNotification message with
    | (some e2, sent) => (some e2, r1.2 ++ sent.map (fun m => ("slack", m)))
    | (none, sent) => (r1.1, r1.2 ++ sent.map (fun m => ("slack", m)))

/-- Method `Engine.NotifySuspension`; a `nil` receiver is `none`. -/
def Engine.NotifySuspension (e : Option Engine) (info : SuspendedInfo) : Notified :=
  match e with
  | none => { engine := none, err := none, sent := [] }
  | some e =>
    let e' : Engine :=
      { e with state :=
          { e.state with SuspendedEmails := mapSet e.state.SuspendedEmails info.Email info } }
    match fanOut e' (FormatSuspendMessage info) with
    | (err, sent) => { engine := some e', err := err, sent := sent }

/-- Method `Engine.NotifyUnsuspend`; a `nil` receiver is `none`. -/
def Engine.NotifyUnsuspend (e : Option Engine) (email : String) : Notified :=
  match e with
  | none => { engine := none, err := none, sent := [] }
  | some e =>
    let e' : Engine :=
      { e with state :=
          { e.state with SuspendedEmails := mapDelete e.state.SuspendedEmails email } }
    match fanOut e' (FormatUnsuspendMessage email) with
    | (err, sent) => { engine := some e', err := err, sent := sent }

/-- What can happen to the shared state: a command handled in its own
surroundings, or a call of a notification entry point by the detector. -/
inductive Event where
  | command (env : Env) (cmd : Command)
  | notifySuspension (info : SuspendedInfo)
  | notifyUnsuspend (email : String)

/-- One event on an engine; `none` is a runtime panic. -/
def stepEvent (e : Engine) : Event → Option Engine
  | .command env cmd =>
    match handleCommand env cmd e.state with
    | none => none
    | some (_, state') => some { e with state := state' }
  | .notifySuspension info => (Engine.NotifySuspension (some e) info).engine
  | .notifyUnsuspend email => (Engine.NotifyUnsuspend (some e) email).engine

/-- A sequence of events on an engine. -/
def runEvents : List Event → Engine → Option Engine
  | [], e => some e
  | ev :: rest, e =>
    match stepEvent e ev with
    | none => none
    | some e' => runEvents rest e'

end bot

/-! ## Package `main`: the configuration file applied to the environment -/

namespace os

/-- Go `os.Getenv` on an environment held as a map: the empty string when the
variable is not there. -/
def Getenv (env : List (String × String)) (key : String) : String :=
  match mapGet env key with
  | none => ""
  | some v => v

/-- Go `os.Setenv`, whose error the caller ignores: an empty key, a key with
`=` or NUL, and a value with NUL are refused and leave the environment as it
was. -/
def Setenv (env : List (String × String)) (key value : String) : List (String × String) :=
  if key = "" ∨ '=' ∈ key.toList ∨ Char.ofNat 0 ∈ key.toList ∨ Char.ofNat 0 ∈ value.toList
  then env
  else mapSet env key value

end os

namespace main

/-- Struct `AppConfig`. -/
structure AppConfig where
  API_TOKEN : String
  NOTIFY_EMAIL : String
  EXIM_LOG : String
  WHM_API_HOST : String
  PREFER_MODERN_UAPI : String
  MAX_PER_MIN : Int
  MAX_PER_HOUR : Int
  TELEGRAM_BOT_TOKEN : String
  TELEGRAM_ADMIN_IDS : String
  TELEGRAM_NOTIFY_CHAT_ID : String
  SLACK_BOT_TOKEN : String
  SLACK_ADMIN_IDS : String
  SLACK_NOTIFY_CHANNEL : String
  deriving DecidableEq, Repr

/-- The statement `if os.Getenv(key) == "" && cond { os.Setenv(key, value) }`. -/
def setIfUnset (env : List (String × String)) (key : String) (cond : Bool) (value : String) :
    List (String × String) :=
  if os.Getenv env key = "" ∧ cond then os.Setenv env key value else env

/-- The `EXIM_LOG` statement of `applyConfigToEnv`, with its two `else`
branches. -/
def applyEximLog (env : List (String × String)) (cfg : AppConfig) : List (String × String) :=
  if os.Getenv env "EXIM_LOG" = "" ∧ cfg.EXIM_LOG ≠ "" then os.Setenv env "EXIM_LOG" cfg.EXIM_LOG
  else if cfg.EXIM_LOG ≠ "" then env
  else os.Setenv env "EXIM_LOG" "/var/log/exim_mainlog"

/-- Function `applyConfigToEnv`: the environment after the call; a `nil`
configuration is `none`. -/
def applyConfigToEnv (cfg : Option AppConfig) (env : List (String × String)) :
    List (String × String) :=
  match cfg with
  | none => env
  | some cfg =>
    let env := setIfUnset env "API_TOKEN" (cfg.API_TOKEN ≠ "") cfg.API_TOKEN
    let env := setIfUnset env "NOTIFY_EMAIL" (cfg.NOTIFY_EMAIL ≠ "") cfg.NOTIFY_EMAIL
    let env := applyEximLog env cfg
    let env := setIfUnset env "WHM_API_HOST" (cfg.WHM_API_HOST ≠ "") cfg.WHM_API_HOST
    let env := setIfUnset env "PREFER_MODERN_UAPI" (cfg.PREFER_MODERN_UAPI ≠ "")
      cfg.PREFER_MODERN_UAPI
    let env := setIfUnset env "MAX_PER_MIN" (cfg.MAX_PER_MIN > 0) (strconv.Itoa cfg.MAX_PER_MIN)
    let env := setIfUnset env "MAX_PER_HOUR" (cfg.MAX_PER_HOUR > 0) (strconv.Itoa cfg.MAX_PER_HOUR)
    let env := setIfUnset env "TELEGRAM_BOT_TOKEN" (cfg.TELEGRAM_BOT_TOKEN ≠ "")
      cfg.TELEGRAM_BOT_TOKEN
    let env := setIfUnset env "TELEGRAM_ADMIN_IDS" (cfg.TELEGRAM_ADMIN_IDS ≠ "")
      cfg.TELEGRAM_ADMIN_IDS
    let env := setIfUnset env "TELEGRAM_NOTIFY_CHAT_ID" (cfg.TELEGRAM_NOTIFY_CHAT_ID ≠ "")
      cfg.TELEGRAM_NOTIFY_CHAT_ID
    let env := setIfUnset env "SLACK_BOT_TOKEN" (cfg.SLACK_BOT_TOKEN ≠ "") cfg.SLACK_BOT_TOKEN
    let env := setIfUnset env "SLACK_ADMIN_IDS" (cfg.SLACK_ADMIN_IDS ≠ "") cfg.SLACK_ADMIN_IDS
    let env := setIfUnset env "SLACK_NOTIFY_CHANNEL" (cfg.SLACK_NOTIFY_CHANNEL ≠ "")
      cfg.SLACK_NOTIFY_CHANNEL
    env

/-- The variables that `applyConfigToEnv` handles. -/
def handledVariables : List String :=
  ["API_TOKEN", "NOTIFY_EMAIL", "EXIM_LOG", "WHM_API_HOST", "PREFER_MODERN_UAPI", "MAX_PER_MIN",
   "MAX_PER_HOUR", "TELEGRAM_BOT_TOKEN", "TELEGRAM_ADMIN_IDS", "TELEGRAM_NOTIFY_CHAT_ID",
   "SLACK_BOT_TOKEN", "SLACK_ADMIN_IDS", "SLACK_NOTIFY_CHANNEL"]

end main

/-! ## Notions used to state the properties -/

/-- ASCII lower-casing of a string, letter by letter. -/
def strings.ToLower (s : String) : String := String.mk (s.toList.map Char.toLower)

/-- Two strings are equal ignoring letter case. -/
def strings.EqualFold (s t : String) : Prop := strings.ToLower s = strings.ToLower t

instance (s t : String) : Decidable (strings.EqualFold s t) := by
  unfold strings.EqualFold; infer_instance

/-- The number of leading elements of `cmd.Args` that the branch of
`handleCommand` for a command type indexes: `Args[0]` for Suspend, Unsuspend,
Stats, WhitelistAdd and WhitelistRemove, `Args[0]` and `Args[1]` for Set, none
for the other types. -/
def bot.indexedArgs (t : bot.CommandType) : Nat :=
  if t = bot.CmdSuspend ∨ t = bot.CmdUnsuspend ∨ t = bot.CmdStats ∨ t = bot.CmdWhitelistAdd
      ∨ t = bot.CmdWhitelistRemove then 1
  else if t = bot.CmdSet then 2
  else 0

/-- A valid email string in the sense of the state invariant: it contains `@`
and what follows the first `@` is not empty. -/
def bot.ValidEmail (s : String) : Prop :=
  0 ≤ strings.Index s '@' ∧ whm.domainOf s ≠ some ""

instance (s : String) : Decidable (bot.ValidEmail s) := by
  unfold bot.ValidEmail; infer_instance

/-- The emails that an event can insert as keys are valid: the first argument
of a Suspend or WhitelistAdd command, the `Email` of a notified suspension. -/
def bot.Event.inputsValid : bot.Event → Prop
  | .command _ cmd =>
    (cmd.Type_ = bot.CmdSuspend ∨ cmd.Type_ = bot.CmdWhitelistAdd) →
      ∀ email, index cmd.Args 0 = some email → bot.ValidEmail email
  | .notifySuspension info => bot.ValidEmail info.Email
  | .notifyUnsuspend _ => True

/-- The admin-gate policy in the words of the specification: Status, List,
Stats, Config and WhitelistList are public, every other command type requires
an admin. -/
def bot.specRequiresAdmin (t : bot.CommandType) : Bool :=
  decide (t ∉ [bot.CmdStatus, bot.CmdList, bot.CmdStats, bot.CmdConfig, bot.CmdWhitelistList])

/-- What an optional transport returns for a notification text: `nil` when the
transport is not there or not ready, else the outcome of `sendMessage`. -/
def bot.delivery (t : Option bot.Transport) (message : String) : Option String :=
  match t with
  | none => none
  | some b => if b.ready then b.sendMessage message else none

/-- The texts an optional transport is handed for a notification. -/
def bot.attempt (platform : String) (t : Option bot.Transport) (message : String) :
    List (String × String) :=
  match t with
  | none => []
  | some b => if b.ready then [(platform, message)] else []

/-! ## Sample surroundings -/

namespace whm

/-- A panel whose account lookup, modern port and legacy port give the same
answer whatever they are asked. -/
def constWorld (prefer : Bool) (lookup : Except String String)
    (modern : Reply UAPIResponse) (legacy : Reply CPanelApiResponse) : World :=
  { PreferModernUAPI := prefer
    UserDataInfo := fun _ => lookup
    modernUAPI := fun _ _ _ => modern
    legacyProxy := fun _ _ _ => legacy }

/-- A legacy envelope with the given status and error list. -/
def legacyEnvelope (status : Int) (errors : Option (List String)) : CPanelApiResponse :=
  { Func := "suspend_outgoing"
    Result := { Warnings := none, Errors := errors, Messages := none, Data := 0,
                Status := status } }

/-- A modern envelope with the given status and error list. -/
def modernEnvelope (status : Int) (errors : Option (List String)) : UAPIResponse :=
  { Func := "suspend_outgoing", Module := "Email", Status := status, StatusMsg := "",
    Errors := errors, Messages := none, Warnings := none }

/-- A panel that owns every domain through the user `bob` and accepts every
request on the modern port. -/
def acceptingWorld : World :=
  constWorld true (.ok "bob") (.decoded (modernEnvelope 1 none)) (.dialError "not reached")

/-- A panel whose modern port refuses the request and whose legacy port
answers with the given envelope. -/
def fallbackWorld (legacy : CPanelApiResponse) : World :=
  constWorld true (.ok "bob") (.decoded (modernEnvelope 0 (some ["modern refusal"])))
    (.decoded legacy)

end whm

namespace main

/-- A configuration file that sets the API token and the hourly limit and
leaves every other entry out. -/
def sampleConfig : AppConfig :=
  { API_TOKEN := "file-token", NOTIFY_EMAIL := "", EXIM_LOG := "", WHM_API_HOST := "",
    PREFER_MODERN_UAPI := "", MAX_PER_MIN := 0, MAX_PER_HOUR := 50, TELEGRAM_BOT_TOKEN := "",
    TELEGRAM_ADMIN_IDS := "", TELEGRAM_NOTIFY_CHAT_ID := "", SLACK_BOT_TOKEN := "",
    SLACK_ADMIN_IDS := "", SLACK_NOTIFY_CHANNEL := "" }

/-- An environment in which the log path and the API token are set. -/
def sampleEnviron : List (String × String) :=
  [("EXIM_LOG", "/custom/exim.log"), ("API_TOKEN", "env-token")]

end main

namespace bot

/-- Surroundings of a dispatcher call around a given panel. -/
def envOf (w : whm.World) : Env :=
  { panel := w, now := 1700000000, uptime := "1h0m0s", formatTime := fun t => Nat.repr t }

/-- A command of the given type and arguments, sent over Telegram. -/
def mkCommand (t : CommandType) (args : List String) : Command :=
  { Type_ := t, Args := args, Platform := "telegram", UserID := "1", ChatID := "1" }

/-- An engine without transports around the state built by `NewEngine`. -/
def bareEngine : Engine := { telegram := none, slack := none, state := initialState }

/-- A ready transport whose every post fails with the given error. -/
def failingTransport (err : String) : Transport :=
  { ready := true, sendMessage := fun _ => some err }

/-- A ready transport whose every post succeeds. -/
def workingTransport : Transport := { ready := true, sendMessage := fun _ => none }

/-- A suspension record as the detector hands it over. -/
def sampleInfo (email : String) : SuspendedInfo :=
  { Email := email, Domain := "example.com", SuspendedAt := 1700000000, Reason := "rate",
    RatePerMin := 12, RatePerHour := 300 }

/-- A state with one suspended email and one whitelisted email. -/
def sampleState : State :=
  { SuspendedEmails :=
      [("ann@example.com",
        { Email := "ann@example.com", Domain := "example.com", SuspendedAt := 1600000000,
          Reason := "rate", RatePerMin := 12, RatePerHour := 300 })]
    Whitelist := [("root@example.com", true)]
    Config := { MaxPerMin := 8, MaxPerHour := 100 } }

end bot

/-! ## Lemmas on the runtime fragments -/

theorem mapGet_mapSet_self {α : Type} (m : List (String × α)) (k : String) (v : α) :
    mapGet (mapSet m k v) k = some v := by
  induction m with
  | nil => simp [mapSet, mapGet]
  | cons kv rest ih =>
    obtain ⟨k', v'⟩ := kv
    by_cases h : k' = k
    · simp [mapSet, mapGet, h]
    · simp [mapSet, mapGet, h, ih]

theorem mem_mapKeys_mapSet {α : Type} (m : List (String × α)) (k : String) (v : α) :
    k ∈ mapKeys (mapSet m k v) := by
  induction m with
  | nil => simp [mapSet, mapKeys]
  | cons kv rest ih =>
    obtain ⟨k', v'⟩ := kv
    by_cases h : k' = k
    · simp [mapSet, mapKeys, h]
    · simp only [mapSet, h, if_false, mapKeys, List.map_cons, List.mem_cons]
      exact Or.inr ih

theorem mapDelete_of_not_mem {α : Type} (m : List (String × α)) (k : String)
    (h : k ∉ mapKeys m) : mapDelete m k = m := by
  induction m with
  | nil => rfl
  | cons kv rest ih =>
    obtain ⟨k', v'⟩ := kv
    simp only [mapKeys, List.map_cons, List.mem_cons, not_or] at h
    have hk : k' ≠ k := fun e => h.1 e.symm
    have hr : mapDelete rest k = rest := ih h.2
    unfold mapDelete at hr ⊢
    rw [List.filter_cons, if_pos (by simpa using hk), hr]

theorem not_mem_mapKeys_mapDelete {α : Type} (m : List (String × α)) (k : String) :
    k ∉ mapKeys (mapDelete m k) := by
  simp [mapKeys, mapDelete, List.mem_filter]

theorem mapDelete_mapSet_of_not_mem {α : Type} (m : List (String × α)) (k : String) (v : α)
    (h : k ∉ mapKeys m) : mapDelete (mapSet m k v) k = m := by
  induction m with
  | nil => simp [mapSet, mapDelete]
  | cons kv rest ih =>
    obtain ⟨k', v'⟩ := kv
    simp only [mapKeys, List.map_cons, List.mem_cons, not_or] at h
    have hk : k' ≠ k := fun e => h.1 e.symm
    have hr : mapDelete (mapSet rest k v) k = rest := ih h.2
    have e : mapSet ((k', v') :: rest) k v = (k', v') :: mapSet rest k v := by
      simp [mapSet, hk]
    rw [e]
    unfold mapDelete at hr ⊢
    rw [List.filter_cons, if_pos (by simpa using hk), hr]

theorem strings.indexFrom_bounds (c : Char) (s : List Char) (i : Nat) :
    strings.indexFrom c s i = -1 ∨
      ((i : Int) ≤ strings.indexFrom c s i ∧ strings.indexFrom c s i < (i : Int) + s.length) := by
  induction s generalizing i with
  | nil => left; rfl
  | cons x xs ih =>
    by_cases h : x = c
    · right
      simp only [strings.indexFrom, h, if_true, List.length_cons]
      constructor <;> push_cast <;> omega
    · simp only [strings.indexFrom, h, if_false, List.length_cons]
      rcases ih (i + 1) with h1 | ⟨h1, h2⟩
      · left; exact h1
      · right
        push_cast at h1 h2 ⊢
        constructor <;> omega

/-- The slice `email[strings.Index(email, "@")+1:]` never goes out of range. -/
theorem whm.domainOf_isSome (email : String) : ∃ domain, whm.domainOf email = some domain := by
  unfold whm.domainOf sliceFrom strings.Index
  have hb := strings.indexFrom_bounds '@' email.toList 0
  have hl : email.length = email.toList.length := rfl
  rw [if_pos]
  · exact ⟨_, rfl⟩
  · rw [hl]
    rcases hb with h | ⟨h1, h2⟩
    · rw [h]; constructor <;> omega
    · push_cast at h1 h2 ⊢
      constructor <;> omega

theorem strings.contains_middle (a b c : String) : strings.Contains (a ++ b ++ c) b := by
  unfold strings.Contains
  refine ⟨a.toList, c.toList, ?_⟩
  simp [String.toList, String.data_append]

theorem fmt.doPrintf_of_no_percent (s : List Char) (h : '%' ∉ s) : fmt.doPrintf 0 s = s := by
  induction s with
  | nil => rfl
  | cons c cs ih =>
    simp only [List.mem_cons, not_or] at h
    have hc : c ≠ '%' := fun e => h.1 e.symm
    simp only [fmt.doPrintf, hc, if_false, ih h.2]

/-- A format without `%` is printed as it stands. -/
theorem fmt.Sprintf0_of_no_percent (s : String) (h : '%' ∉ s.toList) : fmt.Sprintf0 s = s := by
  unfold fmt.Sprintf0
  rw [fmt.doPrintf_of_no_percent _ h]
  cases s
  rfl

theorem whm.modernUAPI_fails (w : whm.World) (function email user : String)
    (h : ∀ record, w.modernUAPI function email user = .decoded record → record.Status ≠ 1) :
    ∃ err, whm.modernUAPI w function email user = some err := by
  unfold whm.modernUAPI
  cases hr : w.modernUAPI function email user with
  | decoded record =>
    have hs := h record hr
    simp [whm.UAPIResponse.IsSuccess, hs]
  | _ => simp

/-- With a legacy envelope whose status is not 1 and whose joined error list has
no `%`, the legacy path returns an error whose text is that joined list. -/
theorem whm.legacyProxy_error_of_no_percent (w : whm.World) (function email user : String)
    (record : whm.CPanelApiResponse)
    (hr : w.legacyProxy function email user = .decoded record)
    (hs : record.Result.Status ≠ 1) (hp : '%' ∉ record.Result.ErrorMessage.toList) :
    whm.legacyProxy w function email user = some record.Result.ErrorMessage := by
  simp [whm.legacyProxy, hr, hs, fmt.Sprintf0_of_no_percent _ hp]

/-! ## The dispatcher and the client: failures -/

/-- C1: when the suspension client returns an error for a Suspend or an Unsuspend
command on `email`, `handleCommand` hands back the state it was given (so
`SuspendedEmails`, `Whitelist` and `Config` are as they were) and the response is
the failure string built from the email and the text of the client's error. -/
theorem bot.handleCommand_client_failure_keeps_state (env : bot.Env) (cmd : bot.Command)
    (state : bot.State) (email err : String) (calls : List whm.Call)
    (hargs : index cmd.Args 0 = some email) :
    (cmd.Type_ = bot.CmdSuspend →
      whm.SuspendEmail env.panel email = some ⟨some err, calls⟩ →
      bot.handleCommand env cmd state
        = some ("❌ Failed to suspend " ++ email ++ ": " ++ err, state)) ∧
    (cmd.Type_ = bot.CmdUnsuspend →
      whm.UnSuspendEmail env.panel email = some ⟨some err, calls⟩ →
      bot.handleCommand env cmd state
        = some ("❌ Failed to unsuspend " ++ email ++ ": " ++ err, state)) := by
  constructor
  · intro ht hs
    simp [bot.handleCommand, ht, hargs, hs, bot.CmdSuspend, bot.CmdStatus]
  · intro ht hs
    simp [bot.handleCommand, ht, hargs, hs, bot.CmdSuspend, bot.CmdStatus, bot.CmdUnsuspend]

theorem bot.handleCommand_client_failure_keeps_state_witness :
    bot.handleCommand
        (bot.envOf (whm.constWorld true (.ok "bob") (.dialError "connection refused")
          (.decoded (whm.legacyEnvelope 0 (some ["No such mailbox"])))))
        (bot.mkCommand bot.CmdSuspend ["bob@example.com"])
        { bot.initialState with Whitelist := [("ann@example.com", true)] }
      = some ("❌ Failed to suspend bob@example.com: No such mailbox",
          { bot.initialState with Whitelist := [("ann@example.com", true)] }) ∧
    bot.handleCommand
        (bot.envOf (whm.constWorld false (.error "no account owns example.com")
          (.dialError "connection refused") (.dialError "connection refused")))
        (bot.mkCommand bot.CmdUnsuspend ["bob@example.com"])
        bot.initialState
      = some ("❌ Failed to unsuspend bob@example.com: no account owns example.com",
          bot.initialState) :=
  ⟨(bot.handleCommand_client_failure_keeps_state
      (bot.envOf (whm.constWorld true (.ok "bob") (.dialError "connection refused")
        (.decoded (whm.legacyEnvelope 0 (some ["No such mailbox"])))))
      (bot.mkCommand bot.CmdSuspend ["bob@example.com"])
      { bot.initialState with Whitelist := [("ann@example.com", true)] }
      "bob@example.com" "No such mailbox"
      [.userDataInfo "example.com", .modernUAPI "suspend_outgoing" "bob@example.com" "bob",
        .legacyProxy "suspend_outgoing" "bob@example.com" "bob"] rfl).1 rfl (by decide),
   (bot.handleCommand_client_failure_keeps_state
      (bot.envOf (whm.constWorld false (.error "no account owns example.com")
        (.dialError "connection refused") (.dialError "connection refused")))
      (bot.mkCommand bot.CmdUnsuspend ["bob@example.com"]) bot.initialState
      "bob@example.com" "no account owns example.com" [.userDataInfo "example.com"] rfl).2
      rfl (by decide)⟩

/-- C2: for an email `e` that is not a key of `SuspendedEmails`, a Suspend whose
panel call succeeds yields a state where `e` is a key with a record whose `Email`
is `e` and whose `Reason` is "Manual suspension via bot"; a following Unsuspend
whose panel call succeeds removes the key and gives back the state from before
the two commands; `Whitelist` and `Config` are unchanged throughout. -/
theorem bot.suspend_unsuspend_round_trip (env1 env2 : bot.Env) (c1 c2 : bot.Command)
    (state : bot.State) (e : String) (calls1 calls2 : List whm.Call)
    (hfresh : e ∉ mapKeys state.SuspendedEmails)
    (ht1 : c1.Type_ = bot.CmdSuspend) (ha1 : index c1.Args 0 = some e)
    (hs : whm.SuspendEmail env1.panel e = some ⟨none, calls1⟩)
    (ht2 : c2.Type_ = bot.CmdUnsuspend) (ha2 : index c2.Args 0 = some e)
    (hu : whm.UnSuspendEmail env2.panel e = some ⟨none, calls2⟩) :
    ∃ (r1 r2 : String) (s1 s2 : bot.State) (record : bot.SuspendedInfo),
      bot.handleCommand env1 c1 state = some (r1, s1) ∧
      e ∈ mapKeys s1.SuspendedEmails ∧
      mapGet s1.SuspendedEmails e = some record ∧
      record.Email = e ∧ record.Reason = "Manual suspension via bot" ∧
      s1.Whitelist = state.Whitelist ∧ s1.Config = state.Config ∧
      bot.handleCommand env2 c2 s1 = some (r2, s2) ∧
      e ∉ mapKeys s2.SuspendedEmails ∧
      s2.SuspendedEmails = state.SuspendedEmails ∧
      s2.Whitelist = state.Whitelist ∧ s2.Config = state.Config := by
  have h1 : bot.handleCommand env1 c1 state
      = some ("✅ Suspended: `" ++ e ++ "`",
          { state with
            SuspendedEmails := mapSet state.SuspendedEmails e
              { Email := e, Domain := "", SuspendedAt := env1.now,
                Reason := "Manual suspension via bot", RatePerMin := 0, RatePerHour := 0 } }) := by
    simp [bot.handleCommand, ht1, ha1, hs, bot.CmdSuspend, bot.CmdStatus]
  have h2 : ∀ s1 : bot.State, bot.handleCommand env2 c2 s1
      = some ("✅ Unsuspended: `" ++ e ++ "`",
          { s1 with SuspendedEmails := mapDelete s1.SuspendedEmails e }) := by
    intro s1
    simp [bot.handleCommand, ht2, ha2, hu, bot.CmdSuspend, bot.CmdStatus, bot.CmdUnsuspend]
  refine ⟨_, _, _, _, _, h1, mem_mapKeys_mapSet _ _ _, mapGet_mapSet_self _ _ _, rfl, rfl, rfl,
    rfl, h2 _, not_mem_mapKeys_mapDelete _ _, mapDelete_mapSet_of_not_mem _ _ _ hfresh, rfl, rfl⟩

theorem bot.suspend_unsuspend_round_trip_witness :
    ∃ (r1 r2 : String) (s1 s2 : bot.State) (record : bot.SuspendedInfo),
      bot.handleCommand (bot.envOf whm.acceptingWorld)
        (bot.mkCommand bot.CmdSuspend ["bob@example.com"]) bot.sampleState = some (r1, s1) ∧
      "bob@example.com" ∈ mapKeys s1.SuspendedEmails ∧
      mapGet s1.SuspendedEmails "bob@example.com" = some record ∧
      record.Email = "bob@example.com" ∧ record.Reason = "Manual suspension via bot" ∧
      s1.Whitelist = bot.sampleState.Whitelist ∧ s1.Config = bot.sampleState.Config ∧
      bot.handleCommand (bot.envOf whm.acceptingWorld)
        (bot.mkCommand bot.CmdUnsuspend ["bob@example.com"]) s1 = some (r2, s2) ∧
      "bob@example.com" ∉ mapKeys s2.SuspendedEmails ∧
      s2.SuspendedEmails = bot.sampleState.SuspendedEmails ∧
      s2.Whitelist = bot.sampleState.Whitelist ∧ s2.Config = bot.sampleState.Config :=
  bot.suspend_unsuspend_round_trip (bot.envOf whm.acceptingWorld) (bot.envOf whm.acceptingWorld)
    (bot.mkCommand bot.CmdSuspend ["bob@example.com"])
    (bot.mkCommand bot.CmdUnsuspend ["bob@example.com"]) bot.sampleState "bob@example.com"
    [.userDataInfo "example.com", .modernUAPI "suspend_outgoing" "bob@example.com" "bob"]
    [.userDataInfo "example.com", .modernUAPI "unsuspend_outgoing" "bob@example.com" "bob"]
    (by decide) rfl rfl (by decide) rfl rfl (by decide)

/-! ## The client: fallback from the modern to the legacy path -/

/-- C3: with the account lookup succeeding and `PreferModernUAPI` set, whenever
the modern path fails (a transport error, a decode error, or an envelope whose
status is not 1), `SuspendEmail` and `UnSuspendEmail` still call the legacy path
with the same email and the resolved user, and return exactly what the legacy
path returns: `nil` when the legacy envelope has `result.status == 1`; the
modern failure has no influence on the outcome (any other failing answer of the
modern port gives the same outcome). -/
theorem whm.modern_failure_falls_back_to_legacy (w : whm.World) (email domain user : String)
    (hd : whm.domainOf email = some domain) (hl : w.UserDataInfo domain = .ok user)
    (hp : w.PreferModernUAPI = true) :
    ((∀ record, w.modernUAPI "suspend_outgoing" email user = .decoded record
        → record.Status ≠ 1) →
      whm.SuspendEmail w email
        = some ⟨whm.suspendEmailLegacy w email user,
            [.userDataInfo domain, .modernUAPI "suspend_outgoing" email user,
             .legacyProxy "suspend_outgoing" email user]⟩ ∧
      (∀ record, w.legacyProxy "suspend_outgoing" email user = .decoded record →
        record.Result.Status = 1 → whm.suspendEmailLegacy w email user = none) ∧
      (∀ m' : String → String → String → whm.Reply whm.UAPIResponse,
        (∀ record, m' "suspend_outgoing" email user = .decoded record → record.Status ≠ 1) →
        whm.SuspendEmail { w with modernUAPI := m' } email = whm.SuspendEmail w email)) ∧
    ((∀ record, w.modernUAPI "unsuspend_outgoing" email user = .decoded record
        → record.Status ≠ 1) →
      whm.UnSuspendEmail w email
        = some ⟨whm.unsuspendEmailLegacy w email user,
            [.userDataInfo domain, .modernUAPI "unsuspend_outgoing" email user,
             .legacyProxy "unsuspend_outgoing" email user]⟩ ∧
      (∀ record, w.legacyProxy "unsuspend_outgoing" email user = .decoded record →
        record.Result.Status = 1 → whm.unsuspendEmailLegacy w email user = none) ∧
      (∀ m' : String → String → String → whm.Reply whm.UAPIResponse,
        (∀ record, m' "unsuspend_outgoing" email user = .decoded record → record.Status ≠ 1) →
        whm.UnSuspendEmail { w with modernUAPI := m' } email = whm.UnSuspendEmail w email)) := by
  have key : ∀ (w : whm.World) (function : String),
      w.UserDataInfo domain = .ok user → w.PreferModernUAPI = true →
      (∀ record, w.modernUAPI function email user = .decoded record → record.Status ≠ 1) →
      (whm.SuspendEmail w email
        = some ⟨whm.legacyProxy w "suspend_outgoing" email user,
            [.userDataInfo domain, .modernUAPI "suspend_outgoing" email user,
             .legacyProxy "suspend_outgoing" email user]⟩ ∨ function ≠ "suspend_outgoing") ∧
      (whm.UnSuspendEmail w email
        = some ⟨whm.legacyProxy w "unsuspend_outgoing" email user,
            [.userDataInfo domain, .modernUAPI "unsuspend_outgoing" email user,
             .legacyProxy "unsuspend_outgoing" email user]⟩ ∨ function ≠ "unsuspend_outgoing") := by
    intro w function hl hp hm
    obtain ⟨merr, hmerr⟩ := whm.modernUAPI_fails w function email user hm
    constructor
    · by_cases hf : function = "suspend_outgoing"
      · subst hf
        left
        simp [whm.SuspendEmail, hd, hl, hp, whm.suspendEmailModernUAPI, hmerr,
          whm.suspendEmailLegacy]
      · exact Or.inr hf
    · by_cases hf : function = "unsuspend_outgoing"
      · subst hf
        left
        simp [whm.UnSuspendEmail, hd, hl, hp, whm.unsuspendEmailModernUAPI, hmerr,
          whm.unsuspendEmailLegacy]
      · exact Or.inr hf
  constructor
  · intro hm
    have h0 := ((key w "suspend_outgoing" hl hp hm).1).resolve_right (fun h => h rfl)
    refine ⟨h0, ?_, ?_⟩
    · intro record hr hs
      simp [whm.suspendEmailLegacy, whm.legacyProxy, hr, hs]
    · intro m' hm'
      have h1 := ((key { w with modernUAPI := m' } "suspend_outgoing" hl hp hm').1).resolve_right
        (fun h => h rfl)
      rw [h0, h1]
      rfl
  · intro hm
    have h0 := ((key w "unsuspend_outgoing" hl hp hm).2).resolve_right (fun h => h rfl)
    refine ⟨h0, ?_, ?_⟩
    · intro record hr hs
      simp [whm.unsuspendEmailLegacy, whm.legacyProxy, hr, hs]
    · intro m' hm'
      have h1 := ((key { w with modernUAPI := m' } "unsuspend_outgoing" hl hp hm').2).resolve_right
        (fun h => h rfl)
      rw [h0, h1]
      rfl

theorem whm.modern_failure_falls_back_to_legacy_witness :
    whm.SuspendEmail (whm.fallbackWorld (whm.legacyEnvelope 1 none)) "bob@example.com"
      = some ⟨none,
          [.userDataInfo "example.com", .modernUAPI "suspend_outgoing" "bob@example.com" "bob",
           .legacyProxy "suspend_outgoing" "bob@example.com" "bob"]⟩ ∧
    whm.UnSuspendEmail (whm.fallbackWorld (whm.legacyEnvelope 0 (some ["No such mailbox"])))
        "bob@example.com"
      = some ⟨some "No such mailbox",
          [.userDataInfo "example.com", .modernUAPI "unsuspend_outgoing" "bob@example.com" "bob",
           .legacyProxy "unsuspend_outgoing" "bob@example.com" "bob"]⟩ :=
  ⟨((whm.modern_failure_falls_back_to_legacy (whm.fallbackWorld (whm.legacyEnvelope 1 none))
      "bob@example.com" "example.com" "bob" (by decide) rfl rfl).1
      (by intro record h; cases h; decide)).1,
   ((whm.modern_failure_falls_back_to_legacy
      (whm.fallbackWorld (whm.legacyEnvelope 0 (some ["No such mailbox"])))
      "bob@example.com" "example.com" "bob" (by decide) rfl rfl).2
      (by intro record h; cases h; decide)).1⟩

/-- C4 (the code at the failing input): both paths fail and the legacy envelope
carries the error list `["Quota 100% used"]`, whose joined text is
"Quota 100% used"; the error returned by `SuspendEmail` and by `UnSuspendEmail`
reads "Quota 100%!u(MISSING)sed", which does not contain the joined text: the
message went through `fmt.Errorf` as a format. -/
theorem whm.legacy_error_with_percent_is_mangled :
    (whm.legacyEnvelope 0 (some ["Quota 100% used"])).Result.Status ≠ 1 ∧
    (whm.legacyEnvelope 0 (some ["Quota 100% used"])).Result.ErrorMessage = "Quota 100% used" ∧
    whm.SuspendEmail (whm.fallbackWorld (whm.legacyEnvelope 0 (some ["Quota 100% used"])))
        "bob@example.com"
      = some ⟨some "Quota 100%!u(MISSING)sed",
          [.userDataInfo "example.com", .modernUAPI "suspend_outgoing" "bob@example.com" "bob",
           .legacyProxy "suspend_outgoing" "bob@example.com" "bob"]⟩ ∧
    whm.UnSuspendEmail (whm.fallbackWorld (whm.legacyEnvelope 0 (some ["Quota 100% used"])))
        "bob@example.com"
      = some ⟨some "Quota 100%!u(MISSING)sed",
          [.userDataInfo "example.com", .modernUAPI "unsuspend_outgoing" "bob@example.com" "bob",
           .legacyProxy "unsuspend_outgoing" "bob@example.com" "bob"]⟩ ∧
    ¬ strings.Contains "Quota 100%!u(MISSING)sed" "Quota 100% used" := by
  refine ⟨by decide, by decide, by decide, by decide, by decide⟩

/-- C5: when the account lookup for the email's domain fails, `SuspendEmail` and
`UnSuspendEmail` return the lookup error and the lookup is the only outbound
call made: neither the modern nor the legacy path is attempted, whatever the
value of `PreferModernUAPI`. -/
theorem whm.lookup_failure_is_returned_at_once (w : whm.World) (email domain err : String)
    (hd : whm.domainOf email = some domain) (hl : w.UserDataInfo domain = .error err) :
    whm.SuspendEmail w email = some ⟨some err, [.userDataInfo domain]⟩ ∧
    whm.UnSuspendEmail w email = some ⟨some err, [.userDataInfo domain]⟩ := by
  constructor
  · simp [whm.SuspendEmail, hd, hl]
  · simp [whm.UnSuspendEmail, hd, hl]

theorem whm.lookup_failure_is_returned_at_once_witness :
    (whm.SuspendEmail (whm.constWorld true (.error "no account owns example.com")
        (.decoded (whm.modernEnvelope 1 none)) (.decoded (whm.legacyEnvelope 1 none)))
        "bob@example.com"
      = some ⟨some "no account owns example.com", [.userDataInfo "example.com"]⟩ ∧
     whm.UnSuspendEmail (whm.constWorld true (.error "no account owns example.com")
        (.decoded (whm.modernEnvelope 1 none)) (.decoded (whm.legacyEnvelope 1 none)))
        "bob@example.com"
      = some ⟨some "no account owns example.com", [.userDataInfo "example.com"]⟩) ∧
    (whm.SuspendEmail (whm.constWorld false (.error "no account owns example.com")
        (.decoded (whm.modernEnvelope 1 none)) (.decoded (whm.legacyEnvelope 1 none)))
        "bob@example.com"
      = some ⟨some "no account owns example.com", [.userDataInfo "example.com"]⟩ ∧
     whm.UnSuspendEmail (whm.constWorld false (.error "no account owns example.com")
        (.decoded (whm.modernEnvelope 1 none)) (.decoded (whm.legacyEnvelope 1 none)))
        "bob@example.com"
      = some ⟨some "no account owns example.com", [.userDataInfo "example.com"]⟩) :=
  ⟨whm.lookup_failure_is_returned_at_once _ "bob@example.com" "example.com"
      "no account owns example.com" (by decide) rfl,
   whm.lookup_failure_is_returned_at_once _ "bob@example.com" "example.com"
      "no account owns example.com" (by decide) rfl⟩

/-! ## The dispatcher, one command type at a time -/


theorem bot.handleCommand_status (env : bot.Env) (cmd : bot.Command) (state : bot.State)
    (h : cmd.Type_ = bot.CmdStatus) :
    bot.handleCommand env cmd state
      = some (bot.FormatStatusMessage env.uptime state.SuspendedEmails.length state.Whitelist.length,
          state) := by
  rw [bot.handleCommand, if_pos h]

theorem bot.handleCommand_suspend (env : bot.Env) (cmd : bot.Command) (state : bot.State)
    (h : cmd.Type_ = bot.CmdSuspend) :
    bot.handleCommand env cmd state
      = match index cmd.Args 0 with
        | none => none
        | some email =>
          match whm.SuspendEmail env.panel email with
          | none => none
          | some ⟨some err, _⟩ => some ("❌ Failed to suspend " ++ email ++ ": " ++ err, state)
          | some ⟨none, _⟩ =>
            some ("✅ Suspended: `" ++ email ++ "`",
              { state with
                SuspendedEmails := mapSet state.SuspendedEmails email
                  { Email := email, Domain := "", SuspendedAt := env.now,
                    Reason := "Manual suspension via bot", RatePerMin := 0, RatePerHour := 0 } }) := by
  rw [bot.handleCommand, if_neg (by rw [h]; decide), if_pos h]

theorem bot.handleCommand_unsuspend (env : bot.Env) (cmd : bot.Command) (state : bot.State)
    (h : cmd.Type_ = bot.CmdUnsuspend) :
    bot.handleCommand env cmd state
      = match index cmd.Args 0 with
        | none => none
        | some email =>
          match whm.UnSuspendEmail env.panel email with
          | none => none
          | some ⟨some err, _⟩ => some ("❌ Failed to unsuspend " ++ email ++ ": " ++ err, state)
          | some ⟨none, _⟩ =>
            some ("✅ Unsuspended: `" ++ email ++ "`",
              { state with SuspendedEmails := mapDelete state.SuspendedEmails email }) := by
  rw [bot.handleCommand, if_neg (by rw [h]; decide), if_neg (by rw [h]; decide), if_pos h]

theorem bot.handleCommand_list (env : bot.Env) (cmd : bot.Command) (state : bot.State)
    (h : cmd.Type_ = bot.CmdList) :
    bot.handleCommand env cmd state
      = if state.SuspendedEmails.length = 0 then some ("📋 No suspended emails", state)
        else some ("📋 *Suspended Emails:*\n\n" ++ bot.listLines env state.SuspendedEmails, state) := by
  rw [bot.handleCommand, if_neg (by rw [h]; decide), if_neg (by rw [h]; decide),
    if_neg (by rw [h]; decide), if_pos h]

theorem bot.handleCommand_stats (env : bot.Env) (cmd : bot.Command) (state : bot.State)
    (h : cmd.Type_ = bot.CmdStats) :
    bot.handleCommand env cmd state
      = match index cmd.Args 0 with
        | none => none
        | some email => some ("📊 Stats for `" ++ email ++ "` - Feature coming soon", state) := by
  rw [bot.handleCommand, if_neg (by rw [h]; decide), if_neg (by rw [h]; decide),
    if_neg (by rw [h]; decide), if_neg (by rw [h]; decide), if_pos h]

theorem bot.handleCommand_config (env : bot.Env) (cmd : bot.Command) (state : bot.State)
    (h : cmd.Type_ = bot.CmdConfig) :
    bot.handleCommand env cmd state
      = some ("⚙️ *Configuration:*\n• Max Per Min: " ++ strconv.Itoa state.Config.MaxPerMin
          ++ "\n• Max Per Hour: " ++ strconv.Itoa state.Config.MaxPerHour, state) := by
  rw [bot.handleCommand, if_neg (by rw [h]; decide), if_neg (by rw [h]; decide),
    if_neg (by rw [h]; decide), if_neg (by rw [h]; decide), if_neg (by rw [h]; decide), if_pos h]

theorem bot.handleCommand_set (env : bot.Env) (cmd : bot.Command) (state : bot.State)
    (h : cmd.Type_ = bot.CmdSet) :
    bot.handleCommand env cmd state
      = match index cmd.Args 0 with
        | none => none
        | some key =>
          match index cmd.Args 1 with
          | none => none
          | some arg =>
            match strconv.ParseInt arg 16 with
            | (_, some _) => some ("❌ Invalid value", state)
            | (value, none) =>
              if key = "max_per_min" ∨ key = "MAX_PER_MIN" then
                some ("✅ Set max_per_min to " ++ strconv.Itoa value,
                  { state with Config := { state.Config with MaxPerMin := int16 value } })
              else if key = "max_per_hour" ∨ key = "MAX_PER_HOUR" then
                some ("✅ Set max_per_hour to " ++ strconv.Itoa value,
                  { state with Config := { state.Config with MaxPerHour := int16 value } })
              else some ("❌ Unknown config key: " ++ key, state) := by
  rw [bot.handleCommand, if_neg (by rw [h]; decide), if_neg (by rw [h]; decide),
    if_neg (by rw [h]; decide), if_neg (by rw [h]; decide), if_neg (by rw [h]; decide),
    if_neg (by rw [h]; decide), if_pos h]

theorem bot.handleCommand_whitelistAdd (env : bot.Env) (cmd : bot.Command) (state : bot.State)
    (h : cmd.Type_ = bot.CmdWhitelistAdd) :
    bot.handleCommand env cmd state
      = match index cmd.Args 0 with
        | none => none
        | some email =>
          some ("✅ Added to whitelist: `" ++ email ++ "`",
            { state with Whitelist := mapSet state.Whitelist email true }) := by
  rw [bot.handleCommand, if_neg (by rw [h]; decide), if_neg (by rw [h]; decide),
    if_neg (by rw [h]; decide), if_neg (by rw [h]; decide), if_neg (by rw [h]; decide),
    if_neg (by rw [h]; decide), if_neg (by rw [h]; decide), if_pos h]

theorem bot.handleCommand_whitelistRemove (env : bot.Env) (cmd : bot.Command) (state : bot.State)
    (h : cmd.Type_ = bot.CmdWhitelistRemove) :
    bot.handleCommand env cmd state
      = match index cmd.Args 0 with
        | none => none
        | some email =>
          some ("✅ Removed from whitelist: `" ++ email ++ "`",
            { state with Whitelist := mapDelete state.Whitelist email }) := by
  rw [bot.handleCommand, if_neg (by rw [h]; decide), if_neg (by rw [h]; decide),
    if_neg (by rw [h]; decide), if_neg (by rw [h]; decide), if_neg (by rw [h]; decide),
    if_neg (by rw [h]; decide), if_neg (by rw [h]; decide), if_neg (by rw [h]; decide), if_pos h]

theorem bot.handleCommand_whitelistList (env : bot.Env) (cmd : bot.Command) (state : bot.State)
    (h : cmd.Type_ = bot.CmdWhitelistList) :
    bot.handleCommand env cmd state
      = if state.Whitelist.length = 0 then some ("📋 Whitelist is empty", state)
        else some ("📋 *Whitelisted Emails:*\n\n" ++ bot.whitelistLines state.Whitelist, state) := by
  rw [bot.handleCommand, if_neg (by rw [h]; decide), if_neg (by rw [h]; decide),
    if_neg (by rw [h]; decide), if_neg (by rw [h]; decide), if_neg (by rw [h]; decide),
    if_neg (by rw [h]; decide), if_neg (by rw [h]; decide), if_neg (by rw [h]; decide),
    if_neg (by rw [h]; decide), if_pos h]

theorem bot.handleCommand_default (env : bot.Env) (cmd : bot.Command) (state : bot.State)
    (h1 : cmd.Type_ ≠ bot.CmdStatus) (h2 : cmd.Type_ ≠ bot.CmdSuspend) (h3 : cmd.Type_ ≠ bot.CmdUnsuspend)
    (h4 : cmd.Type_ ≠ bot.CmdList) (h5 : cmd.Type_ ≠ bot.CmdStats) (h6 : cmd.Type_ ≠ bot.CmdConfig)
    (h7 : cmd.Type_ ≠ bot.CmdSet) (h8 : cmd.Type_ ≠ bot.CmdWhitelistAdd)
    (h9 : cmd.Type_ ≠ bot.CmdWhitelistRemove) (h10 : cmd.Type_ ≠ bot.CmdWhitelistList) :
    bot.handleCommand env cmd state
      = some ("❓ Unknown command. Try /status, /list, /suspend, /unsuspend, /config, /whitelist",
          state) := by
  rw [bot.handleCommand, if_neg h1, if_neg h2, if_neg h3, if_neg h4, if_neg h5, if_neg h6, if_neg h7,
    if_neg h8, if_neg h9, if_neg h10]


/-! ## The `/set` path -/

/-- A value accepted by `ParseInt(_, 10, 16)` lies in the signed 16-bit range. -/
theorem strconv.ParseInt_range (s : String) (v : Int) (h : strconv.ParseInt s 16 = (v, none)) :
    -32768 ≤ v ∧ v ≤ 32767 := by
  unfold strconv.ParseInt at h
  split at h
  · simp at h
  · rename_i c cs _
    dsimp only at h
    split at h
    · simp at h
    · rename_i un e _
      split_ifs at h with h1 h2 h3
      · simp at h
      · simp at h
      · simp only [Prod.mk.injEq, and_true] at h
        subst h
        simp only [not_and, not_lt] at h2
        have := h2 h3
        norm_num at this
        omega
      · simp only [Prod.mk.injEq, and_true] at h
        subst h
        simp only [not_and, not_le, not_not] at h1
        have := h1 h3
        norm_num at this
        omega

/-- The conversion `int16` leaves a value of the signed 16-bit range as it is. -/
theorem int16_of_range (v : Int) (h : -32768 ≤ v ∧ v ≤ 32767) : int16 v = v := by
  unfold int16
  omega

/-- What a Set command does once both arguments are there and the value parses. -/
theorem bot.handleCommand_set_parsed (env : bot.Env) (cmd : bot.Command) (state : bot.State)
    (key arg : String) (v : Int) (ht : cmd.Type_ = bot.CmdSet)
    (h0 : index cmd.Args 0 = some key) (h1 : index cmd.Args 1 = some arg)
    (hp : strconv.ParseInt arg 16 = (v, none)) :
    bot.handleCommand env cmd state
      = if key = "max_per_min" ∨ key = "MAX_PER_MIN" then
          some ("✅ Set max_per_min to " ++ strconv.Itoa v,
            { state with Config := { state.Config with MaxPerMin := v } })
        else if key = "max_per_hour" ∨ key = "MAX_PER_HOUR" then
          some ("✅ Set max_per_hour to " ++ strconv.Itoa v,
            { state with Config := { state.Config with MaxPerHour := v } })
        else some ("❌ Unknown config key: " ++ key, state) := by
  rw [bot.handleCommand_set env cmd state ht, h0, h1]
  simp only [hp, int16_of_range v (strconv.ParseInt_range arg v hp)]

/-- What a Set command does once both arguments are there and the value does
not parse. -/
theorem bot.handleCommand_set_invalid (env : bot.Env) (cmd : bot.Command) (state : bot.State)
    (key arg : String) (ht : cmd.Type_ = bot.CmdSet)
    (h0 : index cmd.Args 0 = some key) (h1 : index cmd.Args 1 = some arg)
    (hp : (strconv.ParseInt arg 16).2 ≠ none) :
    bot.handleCommand env cmd state = some ("❌ Invalid value", state) := by
  rw [bot.handleCommand_set env cmd state ht, h0, h1]
  rcases hq : strconv.ParseInt arg 16 with ⟨v, e⟩
  rw [hq] at hp
  cases e with
  | none => exact absurd rfl hp
  | some e => simp only [hq]

/-- The effect of any command on `Config`: none, unless it is a Set command
whose value parses, which stores that value in one of the two fields. -/
theorem bot.handleCommand_config_frame (env : bot.Env) (cmd : bot.Command)
    (state state' : bot.State) (resp : String)
    (h : bot.handleCommand env cmd state = some (resp, state')) :
    state'.Config = state.Config ∨
    (cmd.Type_ = bot.CmdSet ∧ ∃ arg v, index cmd.Args 1 = some arg ∧
      strconv.ParseInt arg 16 = (v, none) ∧
      (state'.Config = { state.Config with MaxPerMin := v } ∨
       state'.Config = { state.Config with MaxPerHour := v })) := by
  by_cases h7 : cmd.Type_ = bot.CmdSet
  · cases h0 : index cmd.Args 0 with
    | none => rw [bot.handleCommand_set env cmd state h7, h0] at h; cases h
    | some key =>
      cases h1 : index cmd.Args 1 with
      | none => rw [bot.handleCommand_set env cmd state h7, h0, h1] at h; cases h
      | some arg =>
        rcases hq : strconv.ParseInt arg 16 with ⟨v, e⟩
        cases e with
        | some e =>
          rw [bot.handleCommand_set_invalid env cmd state key arg h7 h0 h1 (by rw [hq]; simp)] at h
          simp only [Option.some.injEq, Prod.mk.injEq] at h
          exact Or.inl (by rw [← h.2])
        | none =>
          rw [bot.handleCommand_set_parsed env cmd state key arg v h7 h0 h1 hq] at h
          split_ifs at h
          · simp only [Option.some.injEq, Prod.mk.injEq] at h
            exact Or.inr ⟨h7, arg, v, rfl, hq, Or.inl (by rw [← h.2])⟩
          · simp only [Option.some.injEq, Prod.mk.injEq] at h
            exact Or.inr ⟨h7, arg, v, rfl, hq, Or.inr (by rw [← h.2])⟩
          · simp only [Option.some.injEq, Prod.mk.injEq] at h
            exact Or.inl (by rw [← h.2])
  · left
    by_cases h1 : cmd.Type_ = bot.CmdStatus
    · rw [bot.handleCommand_status env cmd state h1] at h
      simp only [Option.some.injEq, Prod.mk.injEq] at h
      rw [← h.2]
    by_cases h2 : cmd.Type_ = bot.CmdSuspend
    · rw [bot.handleCommand_suspend env cmd state h2] at h
      repeat' split at h
      all_goals (cases h <;> rfl)
    by_cases h3 : cmd.Type_ = bot.CmdUnsuspend
    · rw [bot.handleCommand_unsuspend env cmd state h3] at h
      repeat' split at h
      all_goals (cases h <;> rfl)
    by_cases h4 : cmd.Type_ = bot.CmdList
    · rw [bot.handleCommand_list env cmd state h4] at h
      repeat' split at h
      all_goals (cases h; rfl)
    by_cases h5 : cmd.Type_ = bot.CmdStats
    · rw [bot.handleCommand_stats env cmd state h5] at h
      repeat' split at h
      all_goals (cases h <;> rfl)
    by_cases h6 : cmd.Type_ = bot.CmdConfig
    · rw [bot.handleCommand_config env cmd state h6] at h
      simp only [Option.some.injEq, Prod.mk.injEq] at h
      rw [← h.2]
    by_cases h8 : cmd.Type_ = bot.CmdWhitelistAdd
    · rw [bot.handleCommand_whitelistAdd env cmd state h8] at h
      repeat' split at h
      all_goals (cases h <;> rfl)
    by_cases h9 : cmd.Type_ = bot.CmdWhitelistRemove
    · rw [bot.handleCommand_whitelistRemove env cmd state h9] at h
      repeat' split at h
      all_goals (cases h <;> rfl)
    by_cases h10 : cmd.Type_ = bot.CmdWhitelistList
    · rw [bot.handleCommand_whitelistList env cmd state h10] at h
      repeat' split at h
      all_goals (cases h; rfl)
    rw [bot.handleCommand_default env cmd state h1 h2 h3 h4 h5 h6 h7 h8 h9 h10] at h
    simp only [Option.some.injEq, Prod.mk.injEq] at h
    rw [← h.2]

theorem bot.run_config_range (cmds : List (bot.Env × bot.Command)) :
    ∀ s0 s : bot.State,
      ((-32768 ≤ s0.Config.MaxPerMin ∧ s0.Config.MaxPerMin ≤ 32767) ∧
       (-32768 ≤ s0.Config.MaxPerHour ∧ s0.Config.MaxPerHour ≤ 32767)) →
      bot.run cmds s0 = some s →
      ((-32768 ≤ s.Config.MaxPerMin ∧ s.Config.MaxPerMin ≤ 32767) ∧
       (-32768 ≤ s.Config.MaxPerHour ∧ s.Config.MaxPerHour ≤ 32767)) := by
  induction cmds with
  | nil =>
    intro s0 s h0 hrun
    simp only [bot.run, Option.some.injEq] at hrun
    rw [← hrun]; exact h0
  | cons ec rest ih =>
    intro s0 s h0 hrun
    obtain ⟨env, cmd⟩ := ec
    simp only [bot.run] at hrun
    cases hstep : bot.handleCommand env cmd s0 with
    | none => rw [hstep] at hrun; cases hrun
    | some rs =>
      obtain ⟨resp, s1⟩ := rs
      rw [hstep] at hrun
      refine ih s1 s ?_ hrun
      rcases bot.handleCommand_config_frame env cmd s0 s1 resp hstep with
        hc | ⟨_, arg, v, _, hp, hc | hc⟩
      · rw [hc]; exact h0
      · have hv := strconv.ParseInt_range arg v hp
        rw [hc]; exact ⟨hv, h0.2⟩
      · have hv := strconv.ParseInt_range arg v hp
        rw [hc]; exact ⟨h0.1, hv⟩

theorem bot.run_config_positive (cmds : List (bot.Env × bot.Command)) :
    ∀ s0 s : bot.State,
      (∀ ec ∈ cmds, ec.2.Type_ = bot.CmdSet → ∀ arg v, index ec.2.Args 1 = some arg →
        strconv.ParseInt arg 16 = (v, none) → 0 < v) →
      (0 < s0.Config.MaxPerMin ∧ 0 < s0.Config.MaxPerHour) →
      bot.run cmds s0 = some s →
      (0 < s.Config.MaxPerMin ∧ 0 < s.Config.MaxPerHour) := by
  induction cmds with
  | nil =>
    intro s0 s _ h0 hrun
    simp only [bot.run, Option.some.injEq] at hrun
    rw [← hrun]; exact h0
  | cons ec rest ih =>
    intro s0 s hpos h0 hrun
    obtain ⟨env, cmd⟩ := ec
    simp only [bot.run] at hrun
    cases hstep : bot.handleCommand env cmd s0 with
    | none => rw [hstep] at hrun; cases hrun
    | some rs =>
      obtain ⟨resp, s1⟩ := rs
      rw [hstep] at hrun
      refine ih s1 s (fun ec hec => hpos ec (List.mem_cons_of_mem _ hec)) ?_ hrun
      rcases bot.handleCommand_config_frame env cmd s0 s1 resp hstep with
        hc | ⟨ht, arg, v, ha, hp, hc | hc⟩
      · rw [hc]; exact h0
      · have hv := hpos (env, cmd) (List.mem_cons_self _ _) ht arg v ha hp
        rw [hc]; exact ⟨hv, h0.2⟩
      · have hv := hpos (env, cmd) (List.mem_cons_self _ _) ht arg v ha hp
        rw [hc]; exact ⟨h0.1, hv⟩

/-- C6 (as stated, refuted): from the initial state a single command
`/set max_per_min -5` is answered with the confirmation, not with an error,
and leads to a reachable state whose `MaxPerMin` is -5. -/
theorem bot.set_stores_non_positive_value :
    bot.handleCommand (bot.envOf whm.acceptingWorld)
        (bot.mkCommand bot.CmdSet ["max_per_min", "-5"]) bot.initialState
      = some ("✅ Set max_per_min to -5",
          { bot.initialState with Config := { MaxPerMin := -5, MaxPerHour := 100 } }) ∧
    bot.Reachable { bot.initialState with Config := { MaxPerMin := -5, MaxPerHour := 100 } } ∧
    ¬ (0 < ({ bot.initialState with
              Config := { MaxPerMin := -5, MaxPerHour := 100 } } : bot.State).Config.MaxPerMin) := by
  refine ⟨by decide, ⟨[(bot.envOf whm.acceptingWorld,
    bot.mkCommand bot.CmdSet ["max_per_min", "-5"])], by decide⟩, by decide⟩

/-- C6 (amended): in every state reached from the initial state (MaxPerMin 8,
MaxPerHour 100) by a sequence of commands, `MaxPerMin` and `MaxPerHour` lie in
the signed 16-bit range, and both are > 0 provided no Set command of the
sequence carried a value that parses to zero or to a negative number.  A Set
command whose value is zero or negative is not rejected: for a recognised key
it stores the value and answers with the confirmation. -/
theorem bot.config_after_commands (cmds : List (bot.Env × bot.Command)) (state : bot.State)
    (hrun : bot.run cmds bot.initialState = some state) :
    ((-32768 ≤ state.Config.MaxPerMin ∧ state.Config.MaxPerMin ≤ 32767) ∧
     (-32768 ≤ state.Config.MaxPerHour ∧ state.Config.MaxPerHour ≤ 32767)) ∧
    ((∀ ec ∈ cmds, ec.2.Type_ = bot.CmdSet → ∀ arg v, index ec.2.Args 1 = some arg →
        strconv.ParseInt arg 16 = (v, none) → 0 < v) →
      0 < state.Config.MaxPerMin ∧ 0 < state.Config.MaxPerHour) ∧
    (∀ (env : bot.Env) (cmd : bot.Command) (key arg : String) (v : Int),
      cmd.Type_ = bot.CmdSet → index cmd.Args 0 = some key → index cmd.Args 1 = some arg →
      strconv.ParseInt arg 16 = (v, none) → v ≤ 0 →
      (key = "max_per_min" ∨ key = "MAX_PER_MIN" →
        bot.handleCommand env cmd state
          = some ("✅ Set max_per_min to " ++ strconv.Itoa v,
              { state with Config := { state.Config with MaxPerMin := v } })) ∧
      (key = "max_per_hour" ∨ key = "MAX_PER_HOUR" →
        bot.handleCommand env cmd state
          = some ("✅ Set max_per_hour to " ++ strconv.Itoa v,
              { state with Config := { state.Config with MaxPerHour := v } }))) := by
  refine ⟨bot.run_config_range cmds _ _ (by decide) hrun,
    fun hpos => bot.run_config_positive cmds _ _ hpos (by decide) hrun, ?_⟩
  intro env cmd key arg v ht h0 h1 hp _
  have h := bot.handleCommand_set_parsed env cmd state key arg v ht h0 h1 hp
  constructor
  · intro hk
    rw [h, if_pos hk]
  · intro hk
    by_cases hm : key = "max_per_min" ∨ key = "MAX_PER_MIN"
    · rcases hm with hm | hm <;> rcases hk with hk | hk <;> rw [hm] at hk <;>
        exact absurd hk (by decide)
    · rw [h, if_neg hm, if_pos hk]

theorem bot.config_after_commands_witness :
    bot.run [(bot.envOf whm.acceptingWorld, bot.mkCommand bot.CmdSet ["max_per_min", "12"]),
             (bot.envOf whm.acceptingWorld, bot.mkCommand bot.CmdStatus [])] bot.initialState
      = some { bot.initialState with Config := { MaxPerMin := 12, MaxPerHour := 100 } } ∧
    (0 < ({ bot.initialState with
            Config := { MaxPerMin := 12, MaxPerHour := 100 } } : bot.State).Config.MaxPerMin ∧
     0 < ({ bot.initialState with
            Config := { MaxPerMin := 12, MaxPerHour := 100 } } : bot.State).Config.MaxPerHour) ∧
    bot.handleCommand (bot.envOf whm.acceptingWorld)
        (bot.mkCommand bot.CmdSet ["MAX_PER_HOUR", "0"])
        { bot.initialState with Config := { MaxPerMin := 12, MaxPerHour := 100 } }
      = some ("✅ Set max_per_hour to " ++ strconv.Itoa 0,
          { bot.initialState with Config := { MaxPerMin := 12, MaxPerHour := 0 } }) :=
  ⟨by decide,
   (bot.config_after_commands
      [(bot.envOf whm.acceptingWorld, bot.mkCommand bot.CmdSet ["max_per_min", "12"]),
       (bot.envOf whm.acceptingWorld, bot.mkCommand bot.CmdStatus [])]
      { bot.initialState with Config := { MaxPerMin := 12, MaxPerHour := 100 } }
      (by decide)).2.1
      (by
        intro ec hec ht arg v ha hp
        simp only [List.mem_cons, List.mem_singleton, List.not_mem_nil, or_false] at hec
        rcases hec with rfl | rfl
        · have ha' : arg = "12" := by
            simp only [bot.mkCommand, index, List.get?_cons_succ, List.get?_cons_zero,
              Option.some.injEq] at ha
            exact ha.symm
          subst ha'
          have hq : strconv.ParseInt "12" 16 = (12, none) := by decide
          rw [hq] at hp
          cases hp
          decide
        · exact absurd ht (by decide)),
   ((bot.config_after_commands
      [(bot.envOf whm.acceptingWorld, bot.mkCommand bot.CmdSet ["max_per_min", "12"]),
       (bot.envOf whm.acceptingWorld, bot.mkCommand bot.CmdStatus [])]
      { bot.initialState with Config := { MaxPerMin := 12, MaxPerHour := 100 } }
      (by decide)).2.2 (bot.envOf whm.acceptingWorld)
      (bot.mkCommand bot.CmdSet ["MAX_PER_HOUR", "0"]) "MAX_PER_HOUR" "0" 0 rfl rfl rfl
      (by decide) (by decide)).2 (Or.inr rfl)⟩

/-! ## The decimal rendering read back by the parser -/

theorem strconv.digitChar_facts (m : Nat) (h : m < 10) :
    ('0' ≤ Nat.digitChar m ∧ Nat.digitChar m ≤ '9') ∧
    (Nat.digitChar m).toNat - '0'.toNat = m ∧
    Nat.digitChar m ≠ '+' ∧ Nat.digitChar m ≠ '-' := by
  interval_cases m <;> decide

theorem strconv.parseUintLoop_digit (acc m : Nat) (ds : List Char) (hm : m < 10)
    (hb : acc * 10 + m ≤ 65535) :
    strconv.parseUintLoop 16 acc (Nat.digitChar m :: ds)
      = strconv.parseUintLoop 16 (acc * 10 + m) ds := by
  obtain ⟨hd, hv, _, _⟩ := strconv.digitChar_facts m hm
  rw [strconv.parseUintLoop, if_pos hd]
  dsimp only
  rw [hv, if_neg (by norm_num; omega), if_neg (by norm_num; omega)]

theorem strconv.parseUintLoop_toDigitsCore (fuel : Nat) :
    ∀ (n : Nat) (ds : List Char), n < fuel → n ≤ 65535 →
      strconv.parseUintLoop 16 0 (Nat.toDigitsCore 10 fuel n ds)
        = strconv.parseUintLoop 16 n ds := by
  induction fuel with
  | zero => intro n ds h; omega
  | succ fuel ih =>
    intro n ds hf hb
    rw [Nat.toDigitsCore]
    by_cases h0 : n / 10 = 0
    · rw [if_pos h0]
      have hn : n < 10 := by omega
      rw [Nat.mod_eq_of_lt hn, strconv.parseUintLoop_digit 0 n ds hn (by omega)]
      congr 1
      omega
    · rw [if_neg h0, ih (n / 10) _ (by omega) (by omega),
        strconv.parseUintLoop_digit (n / 10) (n % 10) ds (Nat.mod_lt n (by decide)) (by omega)]
      congr 1
      omega

theorem strconv.toDigitsCore_chars (fuel : Nat) :
    ∀ (n : Nat) (ds : List Char), ∀ c ∈ Nat.toDigitsCore 10 fuel n ds,
      c ∈ ds ∨ ∃ m, m < 10 ∧ c = Nat.digitChar m := by
  induction fuel with
  | zero =>
    intro n ds c hc
    rw [Nat.toDigitsCore] at hc
    exact Or.inl hc
  | succ fuel ih =>
    intro n ds c hc
    rw [Nat.toDigitsCore] at hc
    by_cases h0 : n / 10 = 0
    · rw [if_pos h0, List.mem_cons] at hc
      rcases hc with hc | hc
      · exact Or.inr ⟨n % 10, Nat.mod_lt n (by decide), hc⟩
      · exact Or.inl hc
    · rw [if_neg h0] at hc
      rcases ih (n / 10) _ c hc with hc' | hc'
      · rw [List.mem_cons] at hc'
        rcases hc' with hc' | hc'
        · exact Or.inr ⟨n % 10, Nat.mod_lt n (by decide), hc'⟩
        · exact Or.inl hc'
      · exact Or.inr hc'

/-- Reading the decimal digits of `m` back: `ParseUint(_, 10, 16)` on the digits
that `Itoa` writes for `m ≤ 65535` gives `m`, and the first digit is no sign. -/
theorem strconv.ParseUint_toDigits (m : Nat) (hb : m ≤ 65535) :
    ∃ c cs, Nat.toDigits 10 m = c :: cs ∧ c ≠ '+' ∧ c ≠ '-' ∧
      strconv.ParseUint (c :: cs) 16 = (m, none) := by
  have hp := strconv.parseUintLoop_toDigitsCore (m + 1) m [] (by omega) hb
  have hc := strconv.toDigitsCore_chars (m + 1) m []
  cases hl : Nat.toDigits 10 m with
  | nil =>
    have hz : Nat.toDigitsCore 10 (m + 1) m [] = [] := hl
    rw [Nat.toDigitsCore] at hz
    by_cases h0 : m / 10 = 0
    · rw [if_pos h0] at hz; cases hz
    · rw [if_neg h0] at hz
      have hlen := Nat.toDigitsCore_lens_eq 10 m (m / 10) (Nat.digitChar (m % 10)) []
      rw [hz] at hlen
      simp at hlen
  | cons c cs =>
    have hl' : Nat.toDigitsCore 10 (m + 1) m [] = c :: cs := hl
    rw [hl'] at hp hc
    refine ⟨c, cs, rfl, ?_, ?_, ?_⟩
    · rcases hc c (List.mem_cons_self _ _) with h | ⟨d, hd, he⟩
      · cases h
      · rw [he]; exact (strconv.digitChar_facts d hd).2.2.1
    · rcases hc c (List.mem_cons_self _ _) with h | ⟨d, hd, he⟩
      · cases h
      · rw [he]; exact (strconv.digitChar_facts d hd).2.2.2
    · show strconv.parseUintLoop 16 0 (c :: cs) = (m, none)
      rw [hp]
      rfl

/-- The text that `Itoa` (the `%d` verb) writes for a 16-bit value is read back
by `ParseInt(_, 10, 16)` as that value: it is the decimal numeral of the value. -/
theorem strconv.ParseInt_Itoa (n : Int) (h : -32768 ≤ n ∧ n ≤ 32767) :
    strconv.ParseInt (strconv.Itoa n) 16 = (n, none) := by
  unfold strconv.Itoa
  by_cases hneg : n < 0
  · rw [if_pos hneg]
    obtain ⟨c, cs, hl, _, _, hu⟩ := strconv.ParseUint_toDigits n.natAbs (by omega)
    have ht : ("-" ++ Nat.repr n.natAbs).toList = '-' :: (c :: cs) := by
      rw [← hl]
      rfl
    unfold strconv.ParseInt
    rw [ht]
    dsimp only
    rw [if_pos (Or.inr rfl), hu]
    dsimp only
    rw [if_neg (by simp), if_neg (by norm_num; omega)]
    simp only [if_true]
    congr 1
    omega
  · rw [if_neg hneg]
    obtain ⟨c, cs, hl, hplus, hminus, hu⟩ := strconv.ParseUint_toDigits n.toNat (by omega)
    have ht : (Nat.repr n.toNat).toList = c :: cs := by
      rw [← hl]
      rfl
    unfold strconv.ParseInt
    rw [ht]
    dsimp only
    rw [if_neg (by rintro (e | e); exact hplus e; exact hminus e), hu]
    dsimp only
    have hc : ¬ (c = '-') := hminus
    rw [if_neg (by norm_num; intro _; omega), if_neg (by simp [hc])]
    simp only [hc, if_false]
    congr 1
    omega

theorem strings.contains_of_eq (s a b c : String) (h : s = a ++ b ++ c) :
    strings.Contains s b := by
  rw [h]; exact strings.contains_middle a b c

/-- C7: for a value string that `ParseInt(_, 10, 16)` accepts as `n`, a Set
command with key "max_per_min" stores exactly `n` in `MaxPerMin` (the `int16`
conversion does not truncate) and leaves `MaxPerHour` as it was, and a following
Config command renders a response that contains "Max Per Min: n"; symmetrically
for "max_per_hour" and "Max Per Hour: n".  The number is written by `Itoa n`,
the decimal numeral of `n`: `ParseInt(_, 10, 16)` reads it back as `n`. -/
theorem bot.set_then_config_renders_value (env1 env2 : bot.Env) (c1 c2 : bot.Command)
    (state : bot.State) (arg : String) (n : Int)
    (hp : strconv.ParseInt arg 16 = (n, none))
    (ht1 : c1.Type_ = bot.CmdSet) (ha : index c1.Args 1 = some arg)
    (ht2 : c2.Type_ = bot.CmdConfig) :
    (index c1.Args 0 = some "max_per_min" →
      ∃ (r1 r2 : String) (s1 : bot.State),
        bot.handleCommand env1 c1 state = some (r1, s1) ∧
        s1.Config.MaxPerMin = n ∧ s1.Config.MaxPerHour = state.Config.MaxPerHour ∧
        bot.handleCommand env2 c2 s1 = some (r2, s1) ∧
        r2 = "⚙️ *Configuration:*\n• Max Per Min: " ++ strconv.Itoa n
              ++ "\n• Max Per Hour: " ++ strconv.Itoa state.Config.MaxPerHour ∧
        strings.Contains r2 ("Max Per Min: " ++ strconv.Itoa n)) ∧
    (index c1.Args 0 = some "max_per_hour" →
      ∃ (r1 r2 : String) (s1 : bot.State),
        bot.handleCommand env1 c1 state = some (r1, s1) ∧
        s1.Config.MaxPerHour = n ∧ s1.Config.MaxPerMin = state.Config.MaxPerMin ∧
        bot.handleCommand env2 c2 s1 = some (r2, s1) ∧
        r2 = "⚙️ *Configuration:*\n• Max Per Min: " ++ strconv.Itoa state.Config.MaxPerMin
              ++ "\n• Max Per Hour: " ++ strconv.Itoa n ∧
        strings.Contains r2 ("Max Per Hour: " ++ strconv.Itoa n)) ∧
    strconv.ParseInt (strconv.Itoa n) 16 = (n, none) := by
  refine ⟨?_, ?_, strconv.ParseInt_Itoa n (strconv.ParseInt_range arg n hp)⟩
  · intro h0
    have h := bot.handleCommand_set_parsed env1 c1 state "max_per_min" arg n ht1 h0 ha hp
    rw [if_pos (Or.inl rfl)] at h
    refine ⟨_, _, _, h, rfl, rfl, bot.handleCommand_config env2 c2 _ ht2, rfl, ?_⟩
    refine strings.contains_of_eq _ "⚙️ *Configuration:*\n• " _
      ("\n• Max Per Hour: " ++ strconv.Itoa state.Config.MaxPerHour) ?_
    have e : "⚙️ *Configuration:*\n• Max Per Min: " = "⚙️ *Configuration:*\n• " ++ "Max Per Min: " := by
      decide
    rw [e]
    simp only [String.append_assoc]
  · intro h0
    have h := bot.handleCommand_set_parsed env1 c1 state "max_per_hour" arg n ht1 h0 ha hp
    rw [if_neg (by decide), if_pos (Or.inl rfl)] at h
    refine ⟨_, _, _, h, rfl, rfl, bot.handleCommand_config env2 c2 _ ht2, rfl, ?_⟩
    refine strings.contains_of_eq _
      ("⚙️ *Configuration:*\n• Max Per Min: " ++ strconv.Itoa state.Config.MaxPerMin ++ "\n• ")
      _ "" ?_
    have e : "\n• Max Per Hour: " = "\n• " ++ "Max Per Hour: " := by decide
    rw [e]
    simp only [String.append_assoc, String.append_empty]

theorem bot.set_then_config_renders_value_witness :
    (∃ (r1 r2 : String) (s1 : bot.State),
        bot.handleCommand (bot.envOf whm.acceptingWorld)
          (bot.mkCommand bot.CmdSet ["max_per_min", "12"]) bot.sampleState = some (r1, s1) ∧
        s1.Config.MaxPerMin = 12 ∧ s1.Config.MaxPerHour = 100 ∧
        bot.handleCommand (bot.envOf whm.acceptingWorld) (bot.mkCommand bot.CmdConfig []) s1
          = some (r2, s1) ∧
        r2 = "⚙️ *Configuration:*\n• Max Per Min: 12\n• Max Per Hour: 100" ∧
        strings.Contains r2 "Max Per Min: 12") ∧
    (∃ (r1 r2 : String) (s1 : bot.State),
        bot.handleCommand (bot.envOf whm.acceptingWorld)
          (bot.mkCommand bot.CmdSet ["max_per_hour", "-32768"]) bot.sampleState
          = some (r1, s1) ∧
        s1.Config.MaxPerHour = -32768 ∧ s1.Config.MaxPerMin = 8 ∧
        bot.handleCommand (bot.envOf whm.acceptingWorld) (bot.mkCommand bot.CmdConfig []) s1
          = some (r2, s1) ∧
        r2 = "⚙️ *Configuration:*\n• Max Per Min: 8\n• Max Per Hour: -32768" ∧
        strings.Contains r2 "Max Per Hour: -32768") ∧
    strconv.Itoa 12 = "12" ∧ strconv.Itoa (-32768) = "-32768" ∧ strconv.Itoa 0 = "0" ∧
    strconv.ParseInt "12" 16 = (12, none) := by
  refine ⟨?_, ?_, by decide, by decide, by decide, ?_⟩
  · obtain ⟨r1, r2, s1, h1, h2, h3, h4, h5, _⟩ :=
      (bot.set_then_config_renders_value (bot.envOf whm.acceptingWorld)
        (bot.envOf whm.acceptingWorld) (bot.mkCommand bot.CmdSet ["max_per_min", "12"])
        (bot.mkCommand bot.CmdConfig []) bot.sampleState "12" 12 (by decide) rfl rfl rfl).1 rfl
    have h5' : r2 = "⚙️ *Configuration:*\n• Max Per Min: 12\n• Max Per Hour: 100" :=
      h5.trans (by decide)
    exact ⟨r1, r2, s1, h1, h2, h3.trans (by decide), h4, h5', by rw [h5']; decide⟩
  · obtain ⟨r1, r2, s1, h1, h2, h3, h4, h5, _⟩ :=
      (bot.set_then_config_renders_value (bot.envOf whm.acceptingWorld)
        (bot.envOf whm.acceptingWorld) (bot.mkCommand bot.CmdSet ["max_per_hour", "-32768"])
        (bot.mkCommand bot.CmdConfig []) bot.sampleState "-32768" (-32768) (by decide) rfl rfl
        rfl).2.1 rfl
    have h5' : r2 = "⚙️ *Configuration:*\n• Max Per Min: 8\n• Max Per Hour: -32768" :=
      h5.trans (by decide)
    exact ⟨r1, r2, s1, h1, h2, h3.trans (by decide), h4, h5', by rw [h5']; decide⟩
  · have h := (bot.set_then_config_renders_value (bot.envOf whm.acceptingWorld)
        (bot.envOf whm.acceptingWorld) (bot.mkCommand bot.CmdSet ["max_per_min", "12"])
        (bot.mkCommand bot.CmdConfig []) bot.sampleState "12" 12 (by decide) rfl rfl rfl).2.2
    have e : strconv.Itoa 12 = "12" := by decide
    rw [e] at h
    exact h

/-- C8: for every key and every value string that `ParseInt(_, 10, 16)` does
not accept (non-numeric, empty, or outside [-32768, 32767]), a Set command
answers "❌ Invalid value", a string that contains "Invalid value", and hands
back the state it was given. -/
theorem bot.set_invalid_value_is_rejected (env : bot.Env) (cmd : bot.Command)
    (state : bot.State) (key arg : String) (ht : cmd.Type_ = bot.CmdSet)
    (h0 : index cmd.Args 0 = some key) (h1 : index cmd.Args 1 = some arg)
    (hp : (strconv.ParseInt arg 16).2 ≠ none) :
    bot.handleCommand env cmd state = some ("❌ Invalid value", state) ∧
    strings.Contains "❌ Invalid value" "Invalid value" :=
  ⟨bot.handleCommand_set_invalid env cmd state key arg ht h0 h1 hp, by decide⟩

theorem bot.set_invalid_value_is_rejected_witness :
    (strconv.ParseInt "abc" 16 = (0, some .ErrSyntax) ∧
     bot.handleCommand (bot.envOf whm.acceptingWorld)
        (bot.mkCommand bot.CmdSet ["max_per_min", "abc"]) bot.sampleState
      = some ("❌ Invalid value", bot.sampleState)) ∧
    (strconv.ParseInt "" 16 = (0, some .ErrSyntax) ∧
     bot.handleCommand (bot.envOf whm.acceptingWorld)
        (bot.mkCommand bot.CmdSet ["max_per_hour", ""]) bot.sampleState
      = some ("❌ Invalid value", bot.sampleState)) ∧
    (strconv.ParseInt "40000" 16 = (32767, some .ErrRange) ∧
     bot.handleCommand (bot.envOf whm.acceptingWorld)
        (bot.mkCommand bot.CmdSet ["no_such_key", "40000"]) bot.sampleState
      = some ("❌ Invalid value", bot.sampleState)) :=
  ⟨⟨by decide, (bot.set_invalid_value_is_rejected (bot.envOf whm.acceptingWorld)
      (bot.mkCommand bot.CmdSet ["max_per_min", "abc"]) bot.sampleState "max_per_min" "abc"
      rfl rfl rfl (by decide)).1⟩,
   ⟨by decide, (bot.set_invalid_value_is_rejected (bot.envOf whm.acceptingWorld)
      (bot.mkCommand bot.CmdSet ["max_per_hour", ""]) bot.sampleState "max_per_hour" ""
      rfl rfl rfl (by decide)).1⟩,
   ⟨by decide, (bot.set_invalid_value_is_rejected (bot.envOf whm.acceptingWorld)
      (bot.mkCommand bot.CmdSet ["no_such_key", "40000"]) bot.sampleState "no_such_key" "40000"
      rfl rfl rfl (by decide)).1⟩⟩

/-- C9 (as stated, refuted): the key "Max_Per_Min" equals "max_per_min" ignoring
letter case and "12" is a valid 16-bit value, yet the Set command does not update
`MaxPerMin`: it answers "❌ Unknown config key: Max_Per_Min" and hands back the
state it was given. -/
theorem bot.set_key_mixed_case_is_unknown :
    strings.EqualFold "Max_Per_Min" "max_per_min" ∧
    strconv.ParseInt "12" 16 = (12, none) ∧
    bot.handleCommand (bot.envOf whm.acceptingWorld)
        (bot.mkCommand bot.CmdSet ["Max_Per_Min", "12"]) bot.initialState
      = some ("❌ Unknown config key: Max_Per_Min", bot.initialState) ∧
    bot.initialState.Config.MaxPerMin ≠ 12 := by
  refine ⟨by decide, by decide, by decide, by decide⟩

/-- C9 (amended): the Set command's key is matched against four exact
spellings: for "max_per_min" or "MAX_PER_MIN" and a valid 16-bit value, Set
stores the value in `MaxPerMin`; for "max_per_hour" or "MAX_PER_HOUR", in
`MaxPerHour`; for any other key (mixed-case spellings included) and a valid
value, Set leaves the state as it was and answers
"❌ Unknown config key: <key>". -/
theorem bot.set_key_matches_exact_spellings (env : bot.Env) (cmd : bot.Command)
    (state : bot.State) (key arg : String) (v : Int) (ht : cmd.Type_ = bot.CmdSet)
    (h0 : index cmd.Args 0 = some key) (h1 : index cmd.Args 1 = some arg)
    (hp : strconv.ParseInt arg 16 = (v, none)) :
    (key = "max_per_min" ∨ key = "MAX_PER_MIN" →
      bot.handleCommand env cmd state
        = some ("✅ Set max_per_min to " ++ strconv.Itoa v,
            { state with Config := { state.Config with MaxPerMin := v } })) ∧
    (key = "max_per_hour" ∨ key = "MAX_PER_HOUR" →
      bot.handleCommand env cmd state
        = some ("✅ Set max_per_hour to " ++ strconv.Itoa v,
            { state with Config := { state.Config with MaxPerHour := v } })) ∧
    (key ≠ "max_per_min" → key ≠ "MAX_PER_MIN" → key ≠ "max_per_hour" → key ≠ "MAX_PER_HOUR" →
      bot.handleCommand env cmd state = some ("❌ Unknown config key: " ++ key, state)) := by
  have h := bot.handleCommand_set_parsed env cmd state key arg v ht h0 h1 hp
  refine ⟨?_, ?_, ?_⟩
  · intro hk
    rw [h, if_pos hk]
  · intro hk
    by_cases hm : key = "max_per_min" ∨ key = "MAX_PER_MIN"
    · rcases hm with hm | hm <;> rcases hk with hk | hk <;> rw [hm] at hk <;>
        exact absurd hk (by decide)
    · rw [h, if_neg hm, if_pos hk]
  · intro n1 n2 n3 n4
    rw [h, if_neg (by rintro (e | e); exact n1 e; exact n2 e),
      if_neg (by rintro (e | e); exact n3 e; exact n4 e)]

theorem bot.set_key_matches_exact_spellings_witness :
    bot.handleCommand (bot.envOf whm.acceptingWorld)
        (bot.mkCommand bot.CmdSet ["MAX_PER_MIN", "20"]) bot.sampleState
      = some ("✅ Set max_per_min to " ++ strconv.Itoa 20,
          { bot.sampleState with Config := { bot.sampleState.Config with MaxPerMin := 20 } }) ∧
    bot.handleCommand (bot.envOf whm.acceptingWorld)
        (bot.mkCommand bot.CmdSet ["max_per_hour", "200"]) bot.sampleState
      = some ("✅ Set max_per_hour to " ++ strconv.Itoa 200,
          { bot.sampleState with Config := { bot.sampleState.Config with MaxPerHour := 200 } }) ∧
    bot.handleCommand (bot.envOf whm.acceptingWorld)
        (bot.mkCommand bot.CmdSet ["Max_Per_Hour", "200"]) bot.sampleState
      = some ("❌ Unknown config key: " ++ "Max_Per_Hour", bot.sampleState) :=
  ⟨(bot.set_key_matches_exact_spellings (bot.envOf whm.acceptingWorld)
      (bot.mkCommand bot.CmdSet ["MAX_PER_MIN", "20"]) bot.sampleState "MAX_PER_MIN" "20" 20
      rfl rfl rfl (by decide)).1 (Or.inr rfl),
   (bot.set_key_matches_exact_spellings (bot.envOf whm.acceptingWorld)
      (bot.mkCommand bot.CmdSet ["max_per_hour", "200"]) bot.sampleState "max_per_hour" "200"
      200 rfl rfl rfl (by decide)).2.1 (Or.inl rfl),
   (bot.set_key_matches_exact_spellings (bot.envOf whm.acceptingWorld)
      (bot.mkCommand bot.CmdSet ["Max_Per_Hour", "200"]) bot.sampleState "Max_Per_Hour" "200"
      200 rfl rfl rfl (by decide)).2.2 (by decide) (by decide) (by decide) (by decide)⟩

/-! ## Indexing of `cmd.Args` -/

/-- The client entry point `SuspendEmail` never panics. -/
theorem whm.SuspendEmail_isSome (w : whm.World) (email : String) :
    ∃ outcome, whm.SuspendEmail w email = some outcome := by
  obtain ⟨domain, hd⟩ := whm.domainOf_isSome email
  unfold whm.SuspendEmail
  rw [hd]
  dsimp only
  cases w.UserDataInfo domain with
  | error err => exact ⟨_, rfl⟩
  | ok user =>
    dsimp only
    split
    · split <;> exact ⟨_, rfl⟩
    · exact ⟨_, rfl⟩

/-- The client entry point `UnSuspendEmail` never panics. -/
theorem whm.UnSuspendEmail_isSome (w : whm.World) (email : String) :
    ∃ outcome, whm.UnSuspendEmail w email = some outcome := by
  obtain ⟨domain, hd⟩ := whm.domainOf_isSome email
  unfold whm.UnSuspendEmail
  rw [hd]
  dsimp only
  cases w.UserDataInfo domain with
  | error err => exact ⟨_, rfl⟩
  | ok user =>
    dsimp only
    split
    · split <;> exact ⟨_, rfl⟩
    · exact ⟨_, rfl⟩

theorem index_zero_isSome {α : Type} (xs : List α) (h : 1 ≤ xs.length) :
    ∃ x, index xs 0 = some x := by
  cases xs with
  | nil => simp at h
  | cons x rest => exact ⟨x, rfl⟩

theorem index_one_isSome {α : Type} (xs : List α) (h : 2 ≤ xs.length) :
    ∃ x, index xs 1 = some x := by
  cases xs with
  | nil => simp at h
  | cons x rest =>
    cases rest with
    | nil => simp at h
    | cons y rest => exact ⟨y, rfl⟩

theorem index_eq_none_of_length_le {α : Type} (xs : List α) (i : Nat) (h : xs.length ≤ i) :
    index xs i = none := by
  unfold index
  exact List.get?_eq_none.mpr h

/-- C10 (as stated, refuted): a Suspend command with an empty `Args`, and a Set
command with a single argument, make `handleCommand` index `cmd.Args` out of
range: the call panics instead of returning a response. -/
theorem bot.handleCommand_panics_on_missing_args :
    bot.handleCommand (bot.envOf whm.acceptingWorld) (bot.mkCommand bot.CmdSuspend [])
        bot.initialState = none ∧
    bot.handleCommand (bot.envOf whm.acceptingWorld) (bot.mkCommand bot.CmdSet ["max_per_min"])
        bot.initialState = none := by
  refine ⟨by decide, by decide⟩

/-- The dispatcher returns exactly when `Args` holds the elements its branch
indexes. -/
theorem bot.handleCommand_ne_none_iff (env : bot.Env) (cmd : bot.Command)
    (state : bot.State) :
    bot.handleCommand env cmd state ≠ none ↔ bot.indexedArgs cmd.Type_ ≤ cmd.Args.length := by
  have one : ∀ (f : String → Option (String × bot.State)),
      (∀ e, f e ≠ none) →
      ((match index cmd.Args 0 with
        | none => none
        | some email => f email) ≠ none ↔ 1 ≤ cmd.Args.length) := by
    intro f hf
    constructor
    · intro h
      by_contra hlen
      rw [index_eq_none_of_length_le cmd.Args 0 (by omega)] at h
      exact h rfl
    · intro hlen
      obtain ⟨x, hx⟩ := index_zero_isSome cmd.Args hlen
      rw [hx]
      exact hf x
  by_cases h1 : cmd.Type_ = bot.CmdStatus
  · rw [bot.handleCommand_status env cmd state h1, h1]
    simp [bot.indexedArgs, bot.CmdStatus, bot.CmdSuspend, bot.CmdUnsuspend, bot.CmdStats,
      bot.CmdWhitelistAdd, bot.CmdWhitelistRemove, bot.CmdSet]
  by_cases h2 : cmd.Type_ = bot.CmdSuspend
  · rw [bot.handleCommand_suspend env cmd state h2, h2]
    have hi : bot.indexedArgs bot.CmdSuspend = 1 := by decide
    rw [hi]
    refine one _ ?_
    intro e
    obtain ⟨⟨err, calls⟩, ho⟩ := whm.SuspendEmail_isSome env.panel e
    rw [ho]
    cases err <;> simp
  by_cases h3 : cmd.Type_ = bot.CmdUnsuspend
  · rw [bot.handleCommand_unsuspend env cmd state h3, h3]
    have hi : bot.indexedArgs bot.CmdUnsuspend = 1 := by decide
    rw [hi]
    refine one _ ?_
    intro e
    obtain ⟨⟨err, calls⟩, ho⟩ := whm.UnSuspendEmail_isSome env.panel e
    rw [ho]
    cases err <;> simp
  by_cases h4 : cmd.Type_ = bot.CmdList
  · rw [bot.handleCommand_list env cmd state h4, h4]
    have hi : bot.indexedArgs bot.CmdList = 0 := by decide
    rw [hi]
    split <;> simp
  by_cases h5 : cmd.Type_ = bot.CmdStats
  · rw [bot.handleCommand_stats env cmd state h5, h5]
    have hi : bot.indexedArgs bot.CmdStats = 1 := by decide
    rw [hi]
    exact one _ (fun e => by simp)
  by_cases h6 : cmd.Type_ = bot.CmdConfig
  · rw [bot.handleCommand_config env cmd state h6, h6]
    have hi : bot.indexedArgs bot.CmdConfig = 0 := by decide
    rw [hi]
    simp
  by_cases h7 : cmd.Type_ = bot.CmdSet
  · have hi : bot.indexedArgs bot.CmdSet = 2 := by decide
    rw [h7, hi]
    constructor
    · intro h
      by_contra hlen
      apply h
      rw [bot.handleCommand_set env cmd state h7]
      cases h0 : index cmd.Args 0 with
      | none => rfl
      | some key => 
        dsimp only
        rw [index_eq_none_of_length_le cmd.Args 1 (by omega)]
    · intro hlen
      obtain ⟨key, h0⟩ := index_zero_isSome cmd.Args (by omega)
      obtain ⟨arg, ha⟩ := index_one_isSome cmd.Args hlen
      rcases hq : strconv.ParseInt arg 16 with ⟨v, e⟩
      cases e with
      | some e =>
        rw [bot.handleCommand_set_invalid env cmd state key arg h7 h0 ha (by rw [hq]; simp)]
        simp
      | none =>
        rw [bot.handleCommand_set_parsed env cmd state key arg v h7 h0 ha hq]
        split_ifs <;> simp
  by_cases h8 : cmd.Type_ = bot.CmdWhitelistAdd
  · rw [bot.handleCommand_whitelistAdd env cmd state h8, h8]
    have hi : bot.indexedArgs bot.CmdWhitelistAdd = 1 := by decide
    rw [hi]
    exact one _ (fun e => by simp)
  by_cases h9 : cmd.Type_ = bot.CmdWhitelistRemove
  · rw [bot.handleCommand_whitelistRemove env cmd state h9, h9]
    have hi : bot.indexedArgs bot.CmdWhitelistRemove = 1 := by decide
    rw [hi]
    exact one _ (fun e => by simp)
  by_cases h10 : cmd.Type_ = bot.CmdWhitelistList
  · rw [bot.handleCommand_whitelistList env cmd state h10, h10]
    have hi : bot.indexedArgs bot.CmdWhitelistList = 0 := by decide
    rw [hi]
    split <;> simp
  rw [bot.handleCommand_default env cmd state h1 h2 h3 h4 h5 h6 h7 h8 h9 h10]
  have hi : bot.indexedArgs cmd.Type_ = 0 := by
    unfold bot.indexedArgs
    rw [if_neg (by rintro (e | e | e | e | e) <;> contradiction), if_neg h7]
  rw [hi]
  simp

/-- C10 (amended): `handleCommand` does not bound-check `cmd.Args`; it returns a
response exactly when `Args` has at least as many elements as the branch of the
command type indexes (one for Suspend, Unsuspend, Stats, WhitelistAdd and
WhitelistRemove, two for Set, none for Status, List, Config, WhitelistList,
Unknown and any out-of-enum type); with fewer elements it indexes out of range
and panics. -/
theorem bot.handleCommand_returns_iff_enough_args (env : bot.Env) (cmd : bot.Command)
    (state : bot.State) :
    bot.handleCommand env cmd state ≠ none ↔ bot.indexedArgs cmd.Type_ ≤ cmd.Args.length :=
  bot.handleCommand_ne_none_iff env cmd state

/-! ## The keys of the two maps -/

theorem mem_mapKeys_of_mem_mapSet {α : Type} (m : List (String × α)) (k k' : String) (v : α)
    (h : k ∈ mapKeys (mapSet m k' v)) : k ∈ mapKeys m ∨ k = k' := by
  induction m with
  | nil =>
    simp only [mapSet, mapKeys, List.map_cons, List.map_nil, List.mem_singleton] at h
    exact Or.inr h
  | cons kv rest ih =>
    obtain ⟨k0, v0⟩ := kv
    by_cases hk : k0 = k'
    · simp only [mapSet, hk, if_true, mapKeys, List.map_cons, List.mem_cons] at h ⊢
      rcases h with h | h
      · exact Or.inr h
      · exact Or.inl (Or.inr h)
    · simp only [mapSet, hk, if_false, mapKeys, List.map_cons, List.mem_cons] at h ⊢
      rcases h with h | h
      · exact Or.inl (Or.inl h)
      · rcases ih h with h' | h'
        · exact Or.inl (Or.inr h')
        · exact Or.inr h'

theorem mem_mapKeys_of_mem_mapDelete {α : Type} (m : List (String × α)) (k k' : String)
    (h : k ∈ mapKeys (mapDelete m k')) : k ∈ mapKeys m := by
  unfold mapKeys mapDelete at h
  unfold mapKeys
  rw [List.mem_map] at h ⊢
  obtain ⟨kv, hkv, hk⟩ := h
  exact ⟨kv, (List.mem_filter.mp hkv).1, hk⟩

/-- The effect of any command on the keys of the two maps: a key of
`SuspendedEmails` after the call was a key before or is the first argument of a
Suspend command; a key of `Whitelist` after the call was a key before or is the
first argument of a WhitelistAdd command. -/
theorem bot.handleCommand_keys_frame (env : bot.Env) (cmd : bot.Command)
    (state state' : bot.State) (resp : String)
    (h : bot.handleCommand env cmd state = some (resp, state')) :
    (∀ k ∈ mapKeys state'.SuspendedEmails,
      k ∈ mapKeys state.SuspendedEmails ∨
        (cmd.Type_ = bot.CmdSuspend ∧ index cmd.Args 0 = some k)) ∧
    (∀ k ∈ mapKeys state'.Whitelist,
      k ∈ mapKeys state.Whitelist ∨
        (cmd.Type_ = bot.CmdWhitelistAdd ∧ index cmd.Args 0 = some k)) := by
  have same : state' = state →
      (∀ k ∈ mapKeys state'.SuspendedEmails,
        k ∈ mapKeys state.SuspendedEmails ∨
          (cmd.Type_ = bot.CmdSuspend ∧ index cmd.Args 0 = some k)) ∧
      (∀ k ∈ mapKeys state'.Whitelist,
        k ∈ mapKeys state.Whitelist ∨
          (cmd.Type_ = bot.CmdWhitelistAdd ∧ index cmd.Args 0 = some k)) := by
    intro e
    rw [e]
    exact ⟨fun k hk => Or.inl hk, fun k hk => Or.inl hk⟩
  by_cases h1 : cmd.Type_ = bot.CmdStatus
  · rw [bot.handleCommand_status env cmd state h1] at h
    cases h; exact same rfl
  by_cases h2 : cmd.Type_ = bot.CmdSuspend
  · rw [bot.handleCommand_suspend env cmd state h2] at h
    cases h0 : index cmd.Args 0 with
    | none => rw [h0] at h; cases h
    | some email =>
      rw [h0] at h
      dsimp only at h
      split at h
      · cases h
      · cases h; exact ⟨fun k hk => Or.inl hk, fun k hk => Or.inl hk⟩
      · cases h
        refine ⟨fun k hk => ?_, fun k hk => Or.inl hk⟩
        rcases mem_mapKeys_of_mem_mapSet _ _ _ _ hk with hk' | hk'
        · exact Or.inl hk'
        · exact Or.inr ⟨h2, by rw [hk']⟩
  by_cases h3 : cmd.Type_ = bot.CmdUnsuspend
  · rw [bot.handleCommand_unsuspend env cmd state h3] at h
    cases h0 : index cmd.Args 0 with
    | none => rw [h0] at h; cases h
    | some email =>
      rw [h0] at h
      dsimp only at h
      split at h
      · cases h
      · cases h; exact ⟨fun k hk => Or.inl hk, fun k hk => Or.inl hk⟩
      · cases h
        exact ⟨fun k hk => Or.inl (mem_mapKeys_of_mem_mapDelete _ _ _ hk), fun k hk => Or.inl hk⟩
  by_cases h4 : cmd.Type_ = bot.CmdList
  · rw [bot.handleCommand_list env cmd state h4] at h
    split at h <;> (cases h; exact same rfl)
  by_cases h5 : cmd.Type_ = bot.CmdStats
  · rw [bot.handleCommand_stats env cmd state h5] at h
    split at h
    · cases h
    · cases h; exact same rfl
  by_cases h6 : cmd.Type_ = bot.CmdConfig
  · rw [bot.handleCommand_config env cmd state h6] at h
    cases h; exact same rfl
  by_cases h7 : cmd.Type_ = bot.CmdSet
  · rw [bot.handleCommand_set env cmd state h7] at h
    repeat' split at h
    all_goals first
      | (cases h; done)
      | (cases h; exact ⟨fun k hk => Or.inl hk, fun k hk => Or.inl hk⟩)
  by_cases h8 : cmd.Type_ = bot.CmdWhitelistAdd
  · rw [bot.handleCommand_whitelistAdd env cmd state h8] at h
    cases h0 : index cmd.Args 0 with
    | none => rw [h0] at h; cases h
    | some email =>
      rw [h0] at h
      cases h
      refine ⟨fun k hk => Or.inl hk, fun k hk => ?_⟩
      rcases mem_mapKeys_of_mem_mapSet _ _ _ _ hk with hk' | hk'
      · exact Or.inl hk'
      · exact Or.inr ⟨h8, by rw [hk']⟩
  by_cases h9 : cmd.Type_ = bot.CmdWhitelistRemove
  · rw [bot.handleCommand_whitelistRemove env cmd state h9] at h
    cases h0 : index cmd.Args 0 with
    | none => rw [h0] at h; cases h
    | some email =>
      rw [h0] at h
      cases h
      exact ⟨fun k hk => Or.inl hk, fun k hk => Or.inl (mem_mapKeys_of_mem_mapDelete _ _ _ hk)⟩
  by_cases h10 : cmd.Type_ = bot.CmdWhitelistList
  · rw [bot.handleCommand_whitelistList env cmd state h10] at h
    split at h <;> (cases h; exact same rfl)
  rw [bot.handleCommand_default env cmd state h1 h2 h3 h4 h5 h6 h7 h8 h9 h10] at h
  cases h; exact same rfl

/-- The effect of one event on the keys of the two maps. -/
theorem bot.stepEvent_keys_valid (e e' : bot.Engine) (ev : bot.Event)
    (hstep : bot.stepEvent e ev = some e') (hv : ev.inputsValid)
    (h : (∀ k ∈ mapKeys e.state.SuspendedEmails, bot.ValidEmail k) ∧
         (∀ k ∈ mapKeys e.state.Whitelist, bot.ValidEmail k)) :
    (∀ k ∈ mapKeys e'.state.SuspendedEmails, bot.ValidEmail k) ∧
    (∀ k ∈ mapKeys e'.state.Whitelist, bot.ValidEmail k) := by
  cases ev with
  | command env cmd =>
    simp only [bot.stepEvent] at hstep
    cases hc : bot.handleCommand env cmd e.state with
    | none => rw [hc] at hstep; cases hstep
    | some rs =>
      obtain ⟨resp, s1⟩ := rs
      rw [hc] at hstep
      cases hstep
      obtain ⟨f1, f2⟩ := bot.handleCommand_keys_frame env cmd e.state s1 resp hc
      constructor
      · intro k hk
        rcases f1 k hk with hk' | ⟨ht, ha⟩
        · exact h.1 k hk'
        · exact hv (Or.inl ht) k ha
      · intro k hk
        rcases f2 k hk with hk' | ⟨ht, ha⟩
        · exact h.2 k hk'
        · exact hv (Or.inr ht) k ha
  | notifySuspension info =>
    simp only [bot.stepEvent, bot.Engine.NotifySuspension, Option.some.injEq] at hstep
    cases hstep
    constructor
    · intro k hk
      rcases mem_mapKeys_of_mem_mapSet _ _ _ _ hk with hk' | hk'
      · exact h.1 k hk'
      · rw [hk']; exact hv
    · exact h.2
  | notifyUnsuspend email =>
    simp only [bot.stepEvent, bot.Engine.NotifyUnsuspend, Option.some.injEq] at hstep
    cases hstep
    exact ⟨fun k hk => h.1 k (mem_mapKeys_of_mem_mapDelete _ _ _ hk), h.2⟩

theorem bot.runEvents_keys_valid (events : List bot.Event) :
    ∀ e e' : bot.Engine, bot.runEvents events e = some e' →
      (∀ ev ∈ events, ev.inputsValid) →
      ((∀ k ∈ mapKeys e.state.SuspendedEmails, bot.ValidEmail k) ∧
       (∀ k ∈ mapKeys e.state.Whitelist, bot.ValidEmail k)) →
      ((∀ k ∈ mapKeys e'.state.SuspendedEmails, bot.ValidEmail k) ∧
       (∀ k ∈ mapKeys e'.state.Whitelist, bot.ValidEmail k)) := by
  induction events with
  | nil =>
    intro e e' hrun _ h
    simp only [bot.runEvents, Option.some.injEq] at hrun
    rw [← hrun]; exact h
  | cons ev rest ih =>
    intro e e' hrun hv h
    simp only [bot.runEvents] at hrun
    cases hs : bot.stepEvent e ev with
    | none => rw [hs] at hrun; cases hrun
    | some e1 =>
      rw [hs] at hrun
      exact ih e1 e' hrun (fun ev' hev => hv ev' (List.mem_cons_of_mem _ hev))
        (bot.stepEvent_keys_valid e e1 ev hs (hv ev (List.mem_cons_self _ _)) h)

/-- C11 (as stated, refuted): from the empty initial state, the command
`/whitelist add nobody`, a Suspend of "nobody" that the panel accepts and a
notified suspension of "root@" lead to a state whose `Whitelist` has the key
"nobody" and whose `SuspendedEmails` has the keys "nobody" and "root@": one has
no `@`, the other an empty domain. -/
theorem bot.invalid_keys_are_inserted :
    (bot.runEvents
        [.command (bot.envOf whm.acceptingWorld) (bot.mkCommand bot.CmdWhitelistAdd ["nobody"]),
         .command (bot.envOf whm.acceptingWorld) (bot.mkCommand bot.CmdSuspend ["nobody"]),
         .notifySuspension (bot.sampleInfo "root@")] bot.bareEngine).map
        (fun e => (mapKeys e.state.SuspendedEmails, mapKeys e.state.Whitelist))
      = some (["nobody", "root@"], ["nobody"]) ∧
    ¬ bot.ValidEmail "nobody" ∧ ¬ bot.ValidEmail "root@" := by
  refine ⟨by decide, by decide, by decide⟩

/-- C11 (amended): no validation is applied to the keys.  In every state reached
from the empty initial state by a sequence of commands, NotifySuspension and
NotifyUnsuspend calls in which the first argument of every Suspend and
WhitelistAdd command and the `Email` of every notified record is a valid email
string (contains `@` followed by a non-empty domain), every key of
`SuspendedEmails` and of `Whitelist` is a valid email string. -/
theorem bot.keys_valid_when_inputs_valid (events : List bot.Event) (e0 e : bot.Engine)
    (hinit : e0.state = bot.initialState)
    (hrun : bot.runEvents events e0 = some e)
    (hvalid : ∀ ev ∈ events, ev.inputsValid) :
    (∀ k ∈ mapKeys e.state.SuspendedEmails, bot.ValidEmail k) ∧
    (∀ k ∈ mapKeys e.state.Whitelist, bot.ValidEmail k) := by
  refine bot.runEvents_keys_valid events e0 e hrun hvalid ?_
  rw [hinit]
  exact ⟨fun k hk => by simp [bot.initialState, mapKeys] at hk,
    fun k hk => by simp [bot.initialState, mapKeys] at hk⟩

theorem bot.keys_valid_when_inputs_valid_witness :
    (∀ k ∈ mapKeys
        [("bob@example.com", bot.sampleInfo "bob@example.com")], bot.ValidEmail k) ∧
    (∀ k ∈ mapKeys [("ann@example.com", true)], bot.ValidEmail k) :=
  bot.keys_valid_when_inputs_valid
    [.command (bot.envOf whm.acceptingWorld)
        (bot.mkCommand bot.CmdWhitelistAdd ["ann@example.com"]),
     .notifySuspension (bot.sampleInfo "bob@example.com")]
    bot.bareEngine
    { bot.bareEngine with
      state := { bot.initialState with
        SuspendedEmails := [("bob@example.com", bot.sampleInfo "bob@example.com")]
        Whitelist := [("ann@example.com", true)] } }
    rfl rfl
    (by
      intro ev hev
      simp only [List.mem_cons, List.mem_singleton, List.not_mem_nil, or_false] at hev
      rcases hev with rfl | rfl
      · intro _ email ha
        have he : email = "ann@example.com" := by
          simp only [bot.mkCommand, index, List.get?_cons_zero, Option.some.injEq] at ha
          exact ha.symm
        rw [he]
        decide
      · show bot.ValidEmail (bot.sampleInfo "bob@example.com").Email
        decide)

/-! ## Removal of an absent entry -/

theorem mapDelete_idem {α : Type} (m : List (String × α)) (k : String) :
    mapDelete (mapDelete m k) k = mapDelete m k :=
  mapDelete_of_not_mem _ _ (not_mem_mapKeys_mapDelete m k)

/-- C12: for an email `e`, WhitelistRemove(e) with `e` absent from the whitelist,
and Unsuspend(e) with `e` absent from the suspended map and the panel call
succeeding, hand back the state they were given and still answer with the
success message; applying either command a second time gives the state that
applying it once gives (for Unsuspend, both panel calls succeeding). -/
theorem bot.remove_of_absent_is_noop (env1 env2 : bot.Env) (cmd : bot.Command)
    (state : bot.State) (e : String) (ha : index cmd.Args 0 = some e) :
    (cmd.Type_ = bot.CmdWhitelistRemove →
      (e ∉ mapKeys state.Whitelist →
        bot.handleCommand env1 cmd state
          = some ("✅ Removed from whitelist: `" ++ e ++ "`", state)) ∧
      (∃ s1 : bot.State,
        bot.handleCommand env1 cmd state
          = some ("✅ Removed from whitelist: `" ++ e ++ "`", s1) ∧
        bot.handleCommand env2 cmd s1
          = some ("✅ Removed from whitelist: `" ++ e ++ "`", s1))) ∧
    (cmd.Type_ = bot.CmdUnsuspend →
      ∀ calls1 calls2 : List whm.Call,
      whm.UnSuspendEmail env1.panel e = some ⟨none, calls1⟩ →
      whm.UnSuspendEmail env2.panel e = some ⟨none, calls2⟩ →
      (e ∉ mapKeys state.SuspendedEmails →
        bot.handleCommand env1 cmd state = some ("✅ Unsuspended: `" ++ e ++ "`", state)) ∧
      (∃ s1 : bot.State,
        bot.handleCommand env1 cmd state = some ("✅ Unsuspended: `" ++ e ++ "`", s1) ∧
        bot.handleCommand env2 cmd s1 = some ("✅ Unsuspended: `" ++ e ++ "`", s1))) := by
  constructor
  · intro ht
    have h : ∀ (env : bot.Env) (s : bot.State), bot.handleCommand env cmd s
        = some ("✅ Removed from whitelist: `" ++ e ++ "`",
            { s with Whitelist := mapDelete s.Whitelist e }) := by
      intro env s
      rw [bot.handleCommand_whitelistRemove env cmd s ht, ha]
    constructor
    · intro habs
      rw [h, mapDelete_of_not_mem _ _ habs]
    · refine ⟨_, h env1 state, ?_⟩
      rw [h env2]
      simp only [mapDelete_idem]
  · intro ht calls1 calls2 hu1 hu2
    have h : ∀ (env : bot.Env) (calls : List whm.Call) (s : bot.State),
        whm.UnSuspendEmail env.panel e = some ⟨none, calls⟩ →
        bot.handleCommand env cmd s
          = some ("✅ Unsuspended: `" ++ e ++ "`",
              { s with SuspendedEmails := mapDelete s.SuspendedEmails e }) := by
      intro env calls s hu
      rw [bot.handleCommand_unsuspend env cmd s ht, ha]
      simp only [hu]
    constructor
    · intro habs
      rw [h env1 calls1 state hu1, mapDelete_of_not_mem _ _ habs]
    · refine ⟨_, h env1 calls1 state hu1, ?_⟩
      rw [h env2 calls2 _ hu2]
      simp only [mapDelete_idem]

theorem bot.remove_of_absent_is_noop_witness :
    bot.handleCommand (bot.envOf whm.acceptingWorld)
        (bot.mkCommand bot.CmdWhitelistRemove ["bob@example.com"]) bot.sampleState
      = some ("✅ Removed from whitelist: `" ++ "bob@example.com" ++ "`", bot.sampleState) ∧
    bot.handleCommand (bot.envOf whm.acceptingWorld)
        (bot.mkCommand bot.CmdUnsuspend ["bob@example.com"]) bot.sampleState
      = some ("✅ Unsuspended: `" ++ "bob@example.com" ++ "`", bot.sampleState) :=
  ⟨((bot.remove_of_absent_is_noop (bot.envOf whm.acceptingWorld) (bot.envOf whm.acceptingWorld)
      (bot.mkCommand bot.CmdWhitelistRemove ["bob@example.com"]) bot.sampleState
      "bob@example.com" rfl).1 rfl).1 (by decide),
   ((bot.remove_of_absent_is_noop (bot.envOf whm.acceptingWorld) (bot.envOf whm.acceptingWorld)
      (bot.mkCommand bot.CmdUnsuspend ["bob@example.com"]) bot.sampleState
      "bob@example.com" rfl).2 rfl
      [.userDataInfo "example.com", .modernUAPI "unsuspend_outgoing" "bob@example.com" "bob"]
      [.userDataInfo "example.com", .modernUAPI "unsuspend_outgoing" "bob@example.com" "bob"]
      (by decide) (by decide)).1 (by decide)⟩

/-! ## The sentinels of the two listings -/

theorem strings.third_char_of_append (a x : String) (c : Char)
    (h : a.toList.get? 2 = some c) : (a ++ x).toList.get? 2 = some c := by
  simp only [String.toList, String.data_append] at h ⊢
  have h2 : 2 < a.data.length := by
    by_contra hlt
    rw [List.get?_eq_none.mpr (by omega)] at h
    cases h
  rw [List.get?_eq_getElem?] at h ⊢
  rw [List.getElem?_append_left h2]
  exact h

/-- C13: with an empty `SuspendedEmails` a List command answers exactly
"📋 No suspended emails"; with an empty `Whitelist` a WhitelistList command
answers exactly "📋 Whitelist is empty"; with a non-empty map the response is
neither of the two sentinels. -/
theorem bot.list_sentinels (env : bot.Env) (cmd : bot.Command) (state : bot.State) :
    (cmd.Type_ = bot.CmdList →
      (state.SuspendedEmails = [] →
        bot.handleCommand env cmd state = some ("📋 No suspended emails", state)) ∧
      (state.SuspendedEmails ≠ [] →
        ∃ resp, bot.handleCommand env cmd state = some (resp, state) ∧
          resp ≠ "📋 No suspended emails" ∧ resp ≠ "📋 Whitelist is empty")) ∧
    (cmd.Type_ = bot.CmdWhitelistList →
      (state.Whitelist = [] →
        bot.handleCommand env cmd state = some ("📋 Whitelist is empty", state)) ∧
      (state.Whitelist ≠ [] →
        ∃ resp, bot.handleCommand env cmd state = some (resp, state) ∧
          resp ≠ "📋 No suspended emails" ∧ resp ≠ "📋 Whitelist is empty")) := by
  have star : ∀ (a x s : String), a.toList.get? 2 = some '*' → s.toList.get? 2 ≠ some '*' →
      a ++ x ≠ s := by
    intro a x s ha hs heq
    apply hs
    rw [← heq]
    exact strings.third_char_of_append a x '*' ha
  constructor
  · intro ht
    rw [bot.handleCommand_list env cmd state ht]
    constructor
    · intro he
      rw [he]
      rfl
    · intro hne
      have hl : state.SuspendedEmails.length ≠ 0 := fun h => hne (List.length_eq_zero.mp h)
      rw [if_neg hl]
      exact ⟨_, rfl, star _ _ _ (by decide) (by decide), star _ _ _ (by decide) (by decide)⟩
  · intro ht
    rw [bot.handleCommand_whitelistList env cmd state ht]
    constructor
    · intro he
      rw [he]
      rfl
    · intro hne
      have hl : state.Whitelist.length ≠ 0 := fun h => hne (List.length_eq_zero.mp h)
      rw [if_neg hl]
      exact ⟨_, rfl, star _ _ _ (by decide) (by decide), star _ _ _ (by decide) (by decide)⟩

theorem bot.list_sentinels_witness :
    bot.handleCommand (bot.envOf whm.acceptingWorld) (bot.mkCommand bot.CmdList [])
        bot.initialState = some ("📋 No suspended emails", bot.initialState) ∧
    bot.handleCommand (bot.envOf whm.acceptingWorld) (bot.mkCommand bot.CmdWhitelistList ["list"])
        bot.initialState = some ("📋 Whitelist is empty", bot.initialState) ∧
    (∃ resp, bot.handleCommand (bot.envOf whm.acceptingWorld) (bot.mkCommand bot.CmdList [])
        bot.sampleState = some (resp, bot.sampleState) ∧
      resp ≠ "📋 No suspended emails" ∧ resp ≠ "📋 Whitelist is empty") :=
  ⟨((bot.list_sentinels (bot.envOf whm.acceptingWorld) (bot.mkCommand bot.CmdList [])
      bot.initialState).1 rfl).1 rfl,
   ((bot.list_sentinels (bot.envOf whm.acceptingWorld)
      (bot.mkCommand bot.CmdWhitelistList ["list"]) bot.initialState).2 rfl).1 rfl,
   ((bot.list_sentinels (bot.envOf whm.acceptingWorld) (bot.mkCommand bot.CmdList [])
      bot.sampleState).1 rfl).2 (by decide)⟩

/-! ## Notification fan-out -/

theorem bot.fanOut_eq (e : bot.Engine) (message : String) :
    bot.fanOut e message
      = ((match bot.delivery e.slack message with
          | some err => some err
          | none => bot.delivery e.telegram message),
         bot.attempt "telegram" e.telegram message ++ bot.attempt "slack" e.slack message) := by
  unfold bot.fanOut bot.delivery bot.attempt bot.Transport.SendNotification
  cases ht : e.telegram with
  | none =>
    cases hs : e.slack with
    | none => rfl
    | some sl =>
      by_cases hr : sl.ready = true
      · cases hm : sl.sendMessage message <;> simp [hr, hm]
      · simp [hr]
  | some tg =>
    by_cases hrt : tg.ready = true
    · cases hmt : tg.sendMessage message with
      | none =>
        cases hs : e.slack with
        | none => simp [hrt, hmt]
        | some sl =>
          by_cases hr : sl.ready = true
          · cases hm : sl.sendMessage message <;> simp [hrt, hmt, hr, hm]
          · simp [hrt, hmt, hr]
      | some et =>
        cases hs : e.slack with
        | none => simp [hrt, hmt]
        | some sl =>
          by_cases hr : sl.ready = true
          · cases hm : sl.sendMessage message <;> simp [hrt, hmt, hr, hm]
          · simp [hrt, hmt, hr]
    · cases hs : e.slack with
      | none => simp [hrt]
      | some sl =>
        by_cases hr : sl.ready = true
        · cases hm : sl.sendMessage message <;> simp [hrt, hr, hm]
        · simp [hrt, hr]

/-- C14: `Engine.NotifySuspension` stores the record under its email in
`SuspendedEmails`, and `Engine.NotifyUnsuspend` deletes the email, whatever the
transports answer; every transport that is there and ready is handed the text,
telegram first and slack second, also when telegram fails; the returned error is
the slack error if slack failed, otherwise the telegram error if telegram
failed, otherwise `nil`. -/
theorem bot.notify_updates_state_and_reports_last_error (e : bot.Engine)
    (info : bot.SuspendedInfo) (email : String) :
    ((bot.Engine.NotifySuspension (some e) info).engine
        = some { e with state :=
            { e.state with
              SuspendedEmails := mapSet e.state.SuspendedEmails info.Email info } } ∧
     (bot.Engine.NotifySuspension (some e) info).sent
        = bot.attempt "telegram" e.telegram (bot.FormatSuspendMessage info)
            ++ bot.attempt "slack" e.slack (bot.FormatSuspendMessage info) ∧
     (bot.Engine.NotifySuspension (some e) info).err
        = match bot.delivery e.slack (bot.FormatSuspendMessage info) with
          | some err => some err
          | none => bot.delivery e.telegram (bot.FormatSuspendMessage info)) ∧
    ((bot.Engine.NotifyUnsuspend (some e) email).engine
        = some { e with state :=
            { e.state with SuspendedEmails := mapDelete e.state.SuspendedEmails email } } ∧
     (bot.Engine.NotifyUnsuspend (some e) email).sent
        = bot.attempt "telegram" e.telegram (bot.FormatUnsuspendMessage email)
            ++ bot.attempt "slack" e.slack (bot.FormatUnsuspendMessage email) ∧
     (bot.Engine.NotifyUnsuspend (some e) email).err
        = match bot.delivery e.slack (bot.FormatUnsuspendMessage email) with
          | some err => some err
          | none => bot.delivery e.telegram (bot.FormatUnsuspendMessage email)) ∧
    (∀ tg sl : bot.Transport, e.telegram = some tg → e.slack = some sl →
      tg.ready = true → sl.ready = true →
      (bot.Engine.NotifySuspension (some e) info).sent
        = [("telegram", bot.FormatSuspendMessage info),
           ("slack", bot.FormatSuspendMessage info)] ∧
      (bot.Engine.NotifyUnsuspend (some e) email).sent
        = [("telegram", bot.FormatUnsuspendMessage email),
           ("slack", bot.FormatUnsuspendMessage email)]) := by
  have hs' : bot.Engine.NotifySuspension (some e) info
      = { engine := some { e with state :=
            { e.state with
              SuspendedEmails := mapSet e.state.SuspendedEmails info.Email info } }
          err := (bot.fanOut e (bot.FormatSuspendMessage info)).1
          sent := (bot.fanOut e (bot.FormatSuspendMessage info)).2 } := rfl
  have hu' : bot.Engine.NotifyUnsuspend (some e) email
      = { engine := some { e with state :=
            { e.state with SuspendedEmails := mapDelete e.state.SuspendedEmails email } }
          err := (bot.fanOut e (bot.FormatUnsuspendMessage email)).1
          sent := (bot.fanOut e (bot.FormatUnsuspendMessage email)).2 } := rfl
  refine ⟨⟨?_, ?_, ?_⟩, ⟨?_, ?_, ?_⟩, ?_⟩
  · rw [hs']
  · rw [hs', bot.fanOut_eq]
  · rw [hs', bot.fanOut_eq]
  · rw [hu']
  · rw [hu', bot.fanOut_eq]
  · rw [hu', bot.fanOut_eq]
  · intro tg sl ht hsl hrt hrs
    constructor
    · rw [hs', bot.fanOut_eq]
      simp [bot.attempt, ht, hsl, hrt, hrs]
    · rw [hu', bot.fanOut_eq]
      simp [bot.attempt, ht, hsl, hrt, hrs]

theorem bot.notify_updates_state_and_reports_last_error_witness :
    ((bot.Engine.NotifySuspension
        (some { telegram := some (bot.failingTransport "telegram is down"),
                slack := some bot.workingTransport, state := bot.initialState })
        (bot.sampleInfo "bob@example.com")).engine.map (fun e => e.state)
      = some { bot.initialState with
          SuspendedEmails := [("bob@example.com", bot.sampleInfo "bob@example.com")] }) ∧
    ((bot.Engine.NotifySuspension
        (some { telegram := some (bot.failingTransport "telegram is down"),
                slack := some bot.workingTransport, state := bot.initialState })
        (bot.sampleInfo "bob@example.com")).sent
      = [("telegram", bot.FormatSuspendMessage (bot.sampleInfo "bob@example.com")),
         ("slack", bot.FormatSuspendMessage (bot.sampleInfo "bob@example.com"))]) ∧
    ((bot.Engine.NotifySuspension
        (some { telegram := some (bot.failingTransport "telegram is down"),
                slack := some bot.workingTransport, state := bot.initialState })
        (bot.sampleInfo "bob@example.com")).err = some "telegram is down") ∧
    ((bot.Engine.NotifyUnsuspend
        (some { telegram := some (bot.failingTransport "telegram is down"),
                slack := some (bot.failingTransport "slack is down"),
                state := bot.sampleState })
        "ann@example.com").err = some "slack is down") :=
  ⟨by
      rw [(bot.notify_updates_state_and_reports_last_error
        { telegram := some (bot.failingTransport "telegram is down"),
          slack := some bot.workingTransport, state := bot.initialState }
        (bot.sampleInfo "bob@example.com") "bob@example.com").1.1]
      rfl,
   ((bot.notify_updates_state_and_reports_last_error
        { telegram := some (bot.failingTransport "telegram is down"),
          slack := some bot.workingTransport, state := bot.initialState }
        (bot.sampleInfo "bob@example.com") "bob@example.com").2.2
        (bot.failingTransport "telegram is down") bot.workingTransport rfl rfl rfl rfl).1,
   by
      rw [(bot.notify_updates_state_and_reports_last_error
        { telegram := some (bot.failingTransport "telegram is down"),
          slack := some bot.workingTransport, state := bot.initialState }
        (bot.sampleInfo "bob@example.com") "bob@example.com").1.2.2]
      rfl,
   by
      rw [(bot.notify_updates_state_and_reports_last_error
        { telegram := some (bot.failingTransport "telegram is down"),
          slack := some (bot.failingTransport "slack is down"), state := bot.sampleState }
        (bot.sampleInfo "ann@example.com") "ann@example.com").2.1.2.2]
      rfl⟩

/-! ## The admin gate -/

/-- C15: the admin-gate policy is the same on both transports and is the one of
the specification: for every command type, also outside the enumeration,
`TelegramBot.requiresAdmin` and `SlackBot.requiresAdmin` agree with each other
and with the policy "Status, List, Stats, Config, WhitelistList are public, every
other type requires an admin"; the result is false exactly for those five
types. -/
theorem bot.requiresAdmin_same_policy (t : bot.CommandType) :
    bot.TelegramBot.requiresAdmin t = bot.SlackBot.requiresAdmin t ∧
    bot.TelegramBot.requiresAdmin t = bot.specRequiresAdmin t ∧
    bot.SlackBot.requiresAdmin t = bot.specRequiresAdmin t ∧
    (bot.TelegramBot.requiresAdmin t = false ↔
      t = bot.CmdStatus ∨ t = bot.CmdList ∨ t = bot.CmdStats ∨ t = bot.CmdConfig
        ∨ t = bot.CmdWhitelistList) ∧
    (t = bot.CmdSuspend ∨ t = bot.CmdUnsuspend ∨ t = bot.CmdSet ∨ t = bot.CmdWhitelistAdd
        ∨ t = bot.CmdWhitelistRemove ∨ t = bot.CmdUnknown ∨ t < 0 ∨ 10 < t →
      bot.TelegramBot.requiresAdmin t = true ∧ bot.SlackBot.requiresAdmin t = true) := by
  have hiff : bot.TelegramBot.requiresAdmin t = false ↔
      t = bot.CmdStatus ∨ t = bot.CmdList ∨ t = bot.CmdStats ∨ t = bot.CmdConfig
        ∨ t = bot.CmdWhitelistList := by
    unfold bot.TelegramBot.requiresAdmin
    split_ifs with h
    · exact ⟨fun _ => h, fun _ => rfl⟩
    · exact ⟨fun hf => (by cases hf), fun hp => absurd hp h⟩
  have hspec : bot.TelegramBot.requiresAdmin t = bot.specRequiresAdmin t := by
    unfold bot.TelegramBot.requiresAdmin bot.specRequiresAdmin
    split_ifs with h
    · symm
      simp only [decide_eq_false_iff_not, not_not, List.mem_cons, List.mem_singleton,
        List.not_mem_nil, or_false]
      exact h
    · symm
      simp only [decide_eq_true_eq, List.mem_cons, List.mem_singleton, List.not_mem_nil,
        or_false]
      exact h
  refine ⟨rfl, hspec, hspec, hiff, ?_⟩
  intro h
  have key : ∀ x : Int,
      (x = 2 ∨ x = 3 ∨ x = 7 ∨ x = 8 ∨ x = 9 ∨ x = 0 ∨ x < 0 ∨ 10 < x) →
      ¬ (x = 1 ∨ x = 4 ∨ x = 5 ∨ x = 6 ∨ x = 10) := by
    intro x hx
    omega
  have hne : ¬ (t = bot.CmdStatus ∨ t = bot.CmdList ∨ t = bot.CmdStats ∨ t = bot.CmdConfig
      ∨ t = bot.CmdWhitelistList) := key t h
  have ht : bot.TelegramBot.requiresAdmin t = true := by
    cases hv : bot.TelegramBot.requiresAdmin t with
    | true => rfl
    | false => exact absurd (hiff.mp hv) hne
  exact ⟨ht, ht⟩

/-! ## The configuration file and the environment -/

theorem mapGet_mapSet_ne {α : Type} (m : List (String × α)) (k k' : String) (v : α)
    (h : k ≠ k') : mapGet (mapSet m k' v) k = mapGet m k := by
  induction m with
  | nil => simp [mapSet, mapGet, Ne.symm h]
  | cons kv rest ih =>
    obtain ⟨k0, v0⟩ := kv
    by_cases hk : k0 = k'
    · subst hk
      have hk0 : ¬ k0 = k := fun e => h e.symm
      simp only [mapSet, if_true, mapGet, hk0, if_false]
    · by_cases hk2 : k0 = k
      · subst hk2
        simp only [mapSet, hk, if_false, mapGet, if_true]
      · simp only [mapSet, hk, if_false, mapGet, hk2, ih]

theorem os.Getenv_Setenv_ne (env : List (String × String)) (key value k : String)
    (h : k ≠ key) : os.Getenv (os.Setenv env key value) k = os.Getenv env k := by
  unfold os.Setenv
  split_ifs
  · rfl
  · unfold os.Getenv
    rw [mapGet_mapSet_ne env k key value h]

theorem main.setIfUnset_keeps (env : List (String × String)) (key value k : String)
    (cond : Bool) (hset : os.Getenv env k ≠ "") :
    os.Getenv (main.setIfUnset env key cond value) k = os.Getenv env k := by
  unfold main.setIfUnset
  split_ifs with h
  · have hk : k ≠ key := by
      intro e
      rw [e] at hset
      exact hset h.1
    exact os.Getenv_Setenv_ne env key value k hk
  · rfl

theorem main.applyEximLog_keeps (env : List (String × String)) (cfg : main.AppConfig)
    (k : String) (hset : os.Getenv env k ≠ "") (hex : k = "EXIM_LOG" → cfg.EXIM_LOG ≠ "") :
    os.Getenv (main.applyEximLog env cfg) k = os.Getenv env k := by
  unfold main.applyEximLog
  split_ifs with h1 h2
  · have hk : k ≠ "EXIM_LOG" := by
      intro e
      rw [e] at hset
      exact hset h1.1
    exact os.Getenv_Setenv_ne env _ _ k hk
  · rfl
  · have hk : k ≠ "EXIM_LOG" := fun e => h2 (hex e)
    exact os.Getenv_Setenv_ne env _ _ k hk

/-- Every variable that is set to a non-empty value before `applyConfigToEnv`
has the same value after it, except `EXIM_LOG` when the configuration has no
`exim_log` entry. -/
theorem main.applyConfigToEnv_keeps_set_variable (cfg : main.AppConfig)
    (env : List (String × String)) (k : String) (hset : os.Getenv env k ≠ "")
    (hex : k = "EXIM_LOG" → cfg.EXIM_LOG ≠ "") :
    os.Getenv (main.applyConfigToEnv (some cfg) env) k = os.Getenv env k := by
  have step : ∀ (e : List (String × String)) (key value : String) (cond : Bool),
      os.Getenv e k = os.Getenv env k →
      os.Getenv (main.setIfUnset e key cond value) k = os.Getenv env k := by
    intro e key value cond he
    rw [main.setIfUnset_keeps e key value k cond (by rw [he]; exact hset), he]
  have stepExim : ∀ (e : List (String × String)),
      os.Getenv e k = os.Getenv env k →
      os.Getenv (main.applyEximLog e cfg) k = os.Getenv env k := by
    intro e he
    rw [main.applyEximLog_keeps e cfg k (by rw [he]; exact hset) hex, he]
  unfold main.applyConfigToEnv
  dsimp only
  repeat (first | apply step | apply stepExim)
  rfl

/-- C16 (the code at the failing input): `EXIM_LOG` is one of the variables the
function handles and is set to "/custom/exim.log" in the environment; the
configuration file has no `exim_log` entry; after `applyConfigToEnv` the
variable reads "/var/log/exim_mainlog", while `API_TOKEN`, set in both, keeps
the value of the environment. -/
theorem main.exim_log_of_environment_is_overwritten :
    "EXIM_LOG" ∈ main.handledVariables ∧
    os.Getenv main.sampleEnviron "EXIM_LOG" = "/custom/exim.log" ∧
    os.Getenv (main.applyConfigToEnv (some main.sampleConfig) main.sampleEnviron) "EXIM_LOG"
      = "/var/log/exim_mainlog" ∧
    os.Getenv (main.applyConfigToEnv (some main.sampleConfig) main.sampleEnviron) "API_TOKEN"
      = "env-token" := by
  refine ⟨by decide, by decide, by decide, by decide⟩

/-! ## The domain handed to the account lookup -/

theorem strings.indexFrom_of_first (c : Char) (pre post : List Char) (i : Nat)
    (h : c ∉ pre) : strings.indexFrom c (pre ++ c :: post) i = ((i + pre.length : Nat) : Int) := by
  induction pre generalizing i with
  | nil => simp [strings.indexFrom]
  | cons x xs ih =>
    simp only [List.mem_cons, not_or] at h
    have hx : x ≠ c := fun e => h.1 e.symm
    simp only [List.cons_append, strings.indexFrom, hx, if_false, List.length_cons]
    show strings.indexFrom c (xs ++ c :: post) (i + 1) = _
    rw [ih (i + 1) h.2]
    congr 1
    omega

theorem strings.indexFrom_of_absent (c : Char) (s : List Char) (i : Nat) (h : c ∉ s) :
    strings.indexFrom c s i = -1 := by
  induction s generalizing i with
  | nil => rfl
  | cons x xs ih =>
    simp only [List.mem_cons, not_or] at h
    have hx : x ≠ c := fun e => h.1 e.symm
    simp only [strings.indexFrom, hx, if_false]
    exact ih (i + 1) h.2

theorem whm.SuspendEmail_first_call (w : whm.World) (email domain : String)
    (hd : whm.domainOf email = some domain) :
    ∃ outcome, whm.SuspendEmail w email = some outcome ∧
      outcome.calls.head? = some (.userDataInfo domain) := by
  unfold whm.SuspendEmail
  rw [hd]
  dsimp only
  cases w.UserDataInfo domain with
  | error err => exact ⟨_, rfl, rfl⟩
  | ok user =>
    dsimp only
    split
    · split <;> exact ⟨_, rfl, rfl⟩
    · exact ⟨_, rfl, rfl⟩

theorem whm.UnSuspendEmail_first_call (w : whm.World) (email domain : String)
    (hd : whm.domainOf email = some domain) :
    ∃ outcome, whm.UnSuspendEmail w email = some outcome ∧
      outcome.calls.head? = some (.userDataInfo domain) := by
  unfold whm.UnSuspendEmail
  rw [hd]
  dsimp only
  cases w.UserDataInfo domain with
  | error err => exact ⟨_, rfl, rfl⟩
  | ok user =>
    dsimp only
    split
    · split <;> exact ⟨_, rfl, rfl⟩
    · exact ⟨_, rfl, rfl⟩

/-- C17: the slice `email[strings.Index(email, "@")+1:]` is total; for an email
that contains `@` (several `@` included) it is what follows the first `@`; for
an email without `@` it is the whole email; and this text is what `SuspendEmail`
and `UnSuspendEmail` hand to the account lookup as their first outbound call, no
validation coming before. -/
theorem whm.domain_is_text_after_first_at (w : whm.World) (email : String) :
    (∀ pre post : List Char, email.toList = pre ++ '@' :: post → '@' ∉ pre →
      whm.domainOf email = some (String.mk post)) ∧
    ('@' ∉ email.toList → whm.domainOf email = some email) ∧
    (∃ domain, whm.domainOf email = some domain ∧
      (∃ outcome, whm.SuspendEmail w email = some outcome ∧
        outcome.calls.head? = some (.userDataInfo domain)) ∧
      (∃ outcome, whm.UnSuspendEmail w email = some outcome ∧
        outcome.calls.head? = some (.userDataInfo domain))) := by
  refine ⟨?_, ?_, ?_⟩
  · intro pre post he hpre
    unfold whm.domainOf sliceFrom strings.Index
    have hl : email.length = (pre ++ '@' :: post).length := by
      rw [← he]; rfl
    have hcond : 0 ≤ ((0 + pre.length : Nat) : Int) + 1 ∧
        ((0 + pre.length : Nat) : Int) + 1 ≤ ((pre ++ '@' :: post).length : Int) := by
      rw [List.length_append, List.length_cons]
      constructor <;> push_cast <;> omega
    have hn : (((0 + pre.length : Nat) : Int) + 1).toNat = pre.length + 1 := by
      push_cast
      omega
    rw [he, strings.indexFrom_of_first '@' pre post 0 hpre, hl, if_pos hcond, hn,
      List.drop_append 1]
    rfl
  · intro habs
    unfold whm.domainOf sliceFrom strings.Index
    rw [strings.indexFrom_of_absent '@' email.toList 0 habs]
    rw [if_pos (by constructor <;> omega)]
    cases email
    rfl
  · obtain ⟨domain, hd⟩ := whm.domainOf_isSome email
    exact ⟨domain, hd, whm.SuspendEmail_first_call w email domain hd,
      whm.UnSuspendEmail_first_call w email domain hd⟩

theorem whm.domain_is_text_after_first_at_witness :
    whm.domainOf "bob@mail@example.com" = some "mail@example.com" ∧
    whm.domainOf "nodomain" = some "nodomain" :=
  ⟨(whm.domain_is_text_after_first_at whm.acceptingWorld "bob@mail@example.com").1
      "bob".toList "mail@example.com".toList (by decide) (by decide),
   (whm.domain_is_text_after_first_at whm.acceptingWorld "nodomain").2.1 (by decide)⟩

/-! ## The parser and the dispatcher together -/

/-- The shape of what the `switch` of `ParseCommand` returns, case by case. -/
theorem bot.parseSwitch_cases (cmd : String) (args : List String) :
    (bot.parseSwitch cmd args).Type_ = bot.CmdUnknown ∨
    (cmd = "/status" ∧ (bot.parseSwitch cmd args).Type_ = bot.CmdStatus) ∨
    (cmd = "/suspend" ∧ (bot.parseSwitch cmd args).Type_ = bot.CmdSuspend ∧
      1 ≤ (bot.parseSwitch cmd args).Args.length) ∨
    (cmd = "/unsuspend" ∧ (bot.parseSwitch cmd args).Type_ = bot.CmdUnsuspend ∧
      1 ≤ (bot.parseSwitch cmd args).Args.length) ∨
    (cmd = "/list" ∧ (bot.parseSwitch cmd args).Type_ = bot.CmdList) ∨
    (cmd = "/stats" ∧ (bot.parseSwitch cmd args).Type_ = bot.CmdStats ∧
      1 ≤ (bot.parseSwitch cmd args).Args.length) ∨
    (cmd = "/config" ∧ (bot.parseSwitch cmd args).Type_ = bot.CmdConfig) ∨
    (cmd = "/set" ∧ (bot.parseSwitch cmd args).Type_ = bot.CmdSet ∧
      2 ≤ (bot.parseSwitch cmd args).Args.length) ∨
    (cmd = "/whitelist" ∧ (bot.parseSwitch cmd args).Type_ = bot.CmdWhitelistAdd ∧
      1 ≤ (bot.parseSwitch cmd args).Args.length) ∨
    (cmd = "/whitelist" ∧ (bot.parseSwitch cmd args).Type_ = bot.CmdWhitelistRemove ∧
      1 ≤ (bot.parseSwitch cmd args).Args.length) ∨
    (cmd = "/whitelist" ∧ (bot.parseSwitch cmd args).Type_ = bot.CmdWhitelistList) := by
  generalize hc : bot.parseSwitch cmd args = c
  unfold bot.parseSwitch at hc
  dsimp only at hc
  by_cases h1 : cmd = "/status"
  · rw [if_pos h1] at hc
    subst hc
    exact Or.inr (Or.inl ⟨h1, rfl⟩)
  rw [if_neg h1] at hc
  by_cases h2 : cmd = "/suspend" ∧ args.length ≥ 1
  · rw [if_pos h2] at hc
    subst hc
    exact Or.inr (Or.inr (Or.inl ⟨h2.1, rfl, h2.2⟩))
  rw [if_neg h2] at hc
  by_cases h3 : cmd = "/unsuspend" ∧ args.length ≥ 1
  · rw [if_pos h3] at hc
    subst hc
    exact Or.inr (Or.inr (Or.inr (Or.inl ⟨h3.1, rfl, h3.2⟩)))
  rw [if_neg h3] at hc
  by_cases h4 : cmd = "/list"
  · rw [if_pos h4] at hc
    subst hc
    exact Or.inr (Or.inr (Or.inr (Or.inr (Or.inl ⟨h4, rfl⟩))))
  rw [if_neg h4] at hc
  by_cases h5 : cmd = "/stats" ∧ args.length ≥ 1
  · rw [if_pos h5] at hc
    subst hc
    exact Or.inr (Or.inr (Or.inr (Or.inr (Or.inr (Or.inl ⟨h5.1, rfl, h5.2⟩)))))
  rw [if_neg h5] at hc
  by_cases h6 : cmd = "/config"
  · rw [if_pos h6] at hc
    subst hc
    exact Or.inr (Or.inr (Or.inr (Or.inr (Or.inr (Or.inr (Or.inl ⟨h6, rfl⟩))))))
  rw [if_neg h6] at hc
  by_cases h7 : cmd = "/set" ∧ args.length ≥ 2
  · rw [if_pos h7] at hc
    subst hc
    exact Or.inr (Or.inr (Or.inr (Or.inr (Or.inr (Or.inr (Or.inr
      (Or.inl ⟨h7.1, rfl, h7.2⟩)))))))
  rw [if_neg h7] at hc
  by_cases h8 : cmd = "/whitelist"
  · rw [if_pos h8] at hc
    by_cases h9 : args.length ≥ 2 ∧ index args 0 = some "add"
    · rw [if_pos h9] at hc
      subst hc
      refine Or.inr (Or.inr (Or.inr (Or.inr (Or.inr (Or.inr (Or.inr (Or.inr
        (Or.inl ⟨h8, rfl, ?_⟩))))))))
      have := h9.1
      show 1 ≤ (args.drop 1).length
      rw [List.length_drop]
      omega
    rw [if_neg h9] at hc
    by_cases h10 : args.length ≥ 2 ∧ index args 0 = some "remove"
    · rw [if_pos h10] at hc
      subst hc
      refine Or.inr (Or.inr (Or.inr (Or.inr (Or.inr (Or.inr (Or.inr (Or.inr (Or.inr
        (Or.inl ⟨h8, rfl, ?_⟩)))))))))
      have := h10.1
      show 1 ≤ (args.drop 1).length
      rw [List.length_drop]
      omega
    rw [if_neg h10] at hc
    by_cases h11 : args.length = 1 ∧ index args 0 = some "list"
    · rw [if_pos h11] at hc
      subst hc
      exact Or.inr (Or.inr (Or.inr (Or.inr (Or.inr (Or.inr (Or.inr (Or.inr (Or.inr
        (Or.inr ⟨h8, rfl⟩)))))))))
    rw [if_neg h11] at hc
    subst hc
    exact Or.inl rfl
  rw [if_neg h8] at hc
  subst hc
  exact Or.inl rfl

/-- The command that the `switch` of `ParseCommand` returns holds the arguments
that the dispatcher indexes for its type. -/
theorem bot.parseSwitch_arity (cmd : String) (args : List String) :
    bot.indexedArgs (bot.parseSwitch cmd args).Type_ ≤ (bot.parseSwitch cmd args).Args.length := by
  rcases bot.parseSwitch_cases cmd args with h | ⟨_, h⟩ | ⟨_, h, hl⟩ | ⟨_, h, hl⟩ | ⟨_, h⟩ |
    ⟨_, h, hl⟩ | ⟨_, h⟩ | ⟨_, h, hl⟩ | ⟨_, h, hl⟩ | ⟨_, h, hl⟩ | ⟨_, h⟩
  · rw [h]; exact Nat.zero_le _
  · rw [h]; exact Nat.zero_le _
  · rw [h]; exact hl
  · rw [h]; exact hl
  · rw [h]; exact Nat.zero_le _
  · rw [h]; exact hl
  · rw [h]; exact Nat.zero_le _
  · rw [h]; exact hl
  · rw [h]; exact hl
  · rw [h]; exact hl
  · rw [h]; exact Nat.zero_le _

/-- A command word outside the eight known ones, and a known word with too few
arguments, give `CmdUnknown`. -/
theorem bot.parseSwitch_unknown (cmd : String) (args : List String) :
    (cmd ∉ ["/status", "/suspend", "/unsuspend", "/list", "/stats", "/config", "/set",
        "/whitelist"] → (bot.parseSwitch cmd args).Type_ = bot.CmdUnknown) ∧
    (cmd ∈ ["/suspend", "/unsuspend", "/stats"] → args.length < 1 →
      (bot.parseSwitch cmd args).Type_ = bot.CmdUnknown) ∧
    (cmd = "/set" → args.length < 2 → (bot.parseSwitch cmd args).Type_ = bot.CmdUnknown) ∧
    (cmd = "/whitelist" → args.length < 2 → index args 0 ≠ some "list" →
      (bot.parseSwitch cmd args).Type_ = bot.CmdUnknown) := by
  refine ⟨?_, ?_, ?_, ?_⟩
  · intro hn
    simp only [List.mem_cons, List.mem_singleton, List.not_mem_nil, or_false, not_or] at hn
    obtain ⟨n1, n2, n3, n4, n5, n6, n7, n8⟩ := hn
    unfold bot.parseSwitch
    dsimp only
    rw [if_neg n1, if_neg (fun h => n2 h.1), if_neg (fun h => n3 h.1), if_neg n4,
      if_neg (fun h => n5 h.1), if_neg n6, if_neg (fun h => n7 h.1), if_neg n8]
  · intro hm hl
    have hnl : ¬ args.length ≥ 1 := by omega
    simp only [List.mem_cons, List.mem_singleton, List.not_mem_nil, or_false] at hm
    unfold bot.parseSwitch
    dsimp only
    rcases hm with rfl | rfl | rfl
    · rw [if_neg (by decide), if_neg (fun h => hnl h.2), if_neg (fun h => hnl h.2),
        if_neg (by decide), if_neg (fun h => hnl h.2), if_neg (by decide),
        if_neg (fun h => absurd h.1 (by decide)), if_neg (by decide)]
    · rw [if_neg (by decide), if_neg (fun h => hnl h.2), if_neg (fun h => hnl h.2),
        if_neg (by decide), if_neg (fun h => hnl h.2), if_neg (by decide),
        if_neg (fun h => absurd h.1 (by decide)), if_neg (by decide)]
    · rw [if_neg (by decide), if_neg (fun h => hnl h.2), if_neg (fun h => hnl h.2),
        if_neg (by decide), if_neg (fun h => hnl h.2), if_neg (by decide),
        if_neg (fun h => absurd h.1 (by decide)), if_neg (by decide)]
  · intro hc hl
    have hnl : ¬ args.length ≥ 2 := by omega
    subst hc
    unfold bot.parseSwitch
    dsimp only
    rw [if_neg (by decide), if_neg (fun h => absurd h.1 (by decide)),
      if_neg (fun h => absurd h.1 (by decide)), if_neg (by decide),
      if_neg (fun h => absurd h.1 (by decide)), if_neg (by decide),
      if_neg (fun h => hnl h.2), if_neg (by decide)]
  · intro hc hl hlist
    have hnl : ¬ args.length ≥ 2 := by omega
    subst hc
    unfold bot.parseSwitch
    dsimp only
    rw [if_neg (by decide), if_neg (fun h => absurd h.1 (by decide)),
      if_neg (fun h => absurd h.1 (by decide)), if_neg (by decide),
      if_neg (fun h => absurd h.1 (by decide)), if_neg (by decide),
      if_neg (fun h => absurd h.1 (by decide)), if_pos rfl,
      if_neg (fun h => hnl h.1), if_neg (fun h => hnl h.1), if_neg (fun h => hlist h.2)]

/-- What `ParseCommand` returns: the unknown command, or what the `switch` makes
of the fields of the trimmed text. -/
theorem bot.ParseCommand_eq (text : String) :
    (bot.ParseCommand text
        = { Type_ := bot.CmdUnknown, Args := [], Platform := "", UserID := "", ChatID := "" } ∧
      (strings.HasPrefix (strings.TrimSpace text) "/" = false ∨
        strings.Fields (strings.TrimSpace text) = [])) ∨
    (∃ cmd args, strings.HasPrefix (strings.TrimSpace text) "/" = true ∧
      strings.Fields (strings.TrimSpace text) = cmd :: args ∧
      bot.ParseCommand text = bot.parseSwitch cmd args) := by
  unfold bot.ParseCommand
  dsimp only
  by_cases hp : strings.HasPrefix (strings.TrimSpace text) "/" = true
  · rw [if_neg (by simpa using hp)]
    cases hf : strings.Fields (strings.TrimSpace text) with
    | nil => exact Or.inl ⟨rfl, Or.inr rfl⟩
    | cons cmd args => exact Or.inr ⟨cmd, args, hp, rfl, rfl⟩
  · rw [if_pos (by simpa using hp)]
    exact Or.inl ⟨rfl, Or.inl (by simpa using hp)⟩

/-- C19: argument-count validation happens in the parser.  For every text the
command returned by `ParseCommand` carries at least one argument when its type
is Suspend, Unsuspend, Stats, WhitelistAdd or WhitelistRemove and at least two
when it is Set; a text that does not start with `/` after trimming, names an
unknown command word, or lacks the required arguments parses to `CmdUnknown`;
hence `handleCommand` on the parsed command (whatever platform, user and chat
the transport fills in) never indexes `Args` out of range: it returns. -/
theorem bot.ParseCommand_guarantees_arity (text : String) :
    ((bot.ParseCommand text).Type_ ∈ [bot.CmdSuspend, bot.CmdUnsuspend, bot.CmdStats,
        bot.CmdWhitelistAdd, bot.CmdWhitelistRemove] →
      1 ≤ (bot.ParseCommand text).Args.length) ∧
    ((bot.ParseCommand text).Type_ = bot.CmdSet → 2 ≤ (bot.ParseCommand text).Args.length) ∧
    (strings.HasPrefix (strings.TrimSpace text) "/" = false →
      (bot.ParseCommand text).Type_ = bot.CmdUnknown) ∧
    (∀ cmd args, strings.Fields (strings.TrimSpace text) = cmd :: args →
      (cmd ∉ ["/status", "/suspend", "/unsuspend", "/list", "/stats", "/config", "/set",
          "/whitelist"] → (bot.ParseCommand text).Type_ = bot.CmdUnknown) ∧
      (cmd ∈ ["/suspend", "/unsuspend", "/stats"] → args.length < 1 →
        (bot.ParseCommand text).Type_ = bot.CmdUnknown) ∧
      (cmd = "/set" → args.length < 2 → (bot.ParseCommand text).Type_ = bot.CmdUnknown) ∧
      (cmd = "/whitelist" → args.length < 2 → index args 0 ≠ some "list" →
        (bot.ParseCommand text).Type_ = bot.CmdUnknown)) ∧
    (∀ (env : bot.Env) (state : bot.State) (cmd : bot.Command),
      cmd.Type_ = (bot.ParseCommand text).Type_ → cmd.Args = (bot.ParseCommand text).Args →
      bot.handleCommand env cmd state ≠ none) := by
  have har : bot.indexedArgs (bot.ParseCommand text).Type_
      ≤ (bot.ParseCommand text).Args.length := by
    rcases bot.ParseCommand_eq text with ⟨h, _⟩ | ⟨cmd, args, _, _, h⟩
    · rw [h]; exact Nat.zero_le _
    · rw [h]; exact bot.parseSwitch_arity cmd args
  refine ⟨?_, ?_, ?_, ?_, ?_⟩
  · intro hm
    have hi : bot.indexedArgs (bot.ParseCommand text).Type_ = 1 := by
      simp only [List.mem_cons, List.mem_singleton, List.not_mem_nil, or_false] at hm
      unfold bot.indexedArgs
      rw [if_pos hm]
    rw [hi] at har
    exact har
  · intro hs
    have hi : bot.indexedArgs (bot.ParseCommand text).Type_ = 2 := by
      rw [hs]; decide
    rw [hi] at har
    exact har
  · intro hp
    rcases bot.ParseCommand_eq text with ⟨h, _⟩ | ⟨cmd, args, hp', _, _⟩
    · rw [h]
    · rw [hp] at hp'; cases hp'
  · intro cmd args hf
    rcases bot.ParseCommand_eq text with ⟨h, _⟩ | ⟨cmd', args', _, hf', h⟩
    · rw [h]
      exact ⟨fun _ => rfl, fun _ _ => rfl, fun _ _ => rfl, fun _ _ _ => rfl⟩
    · rw [hf] at hf'
      cases hf'
      rw [h]
      exact bot.parseSwitch_unknown cmd args
  · intro env state cmd ht ha
    rw [bot.handleCommand_ne_none_iff env cmd state, ht, ha]
    exact har

theorem bot.ParseCommand_guarantees_arity_witness :
    (bot.ParseCommand "  /suspend bob@example.com ").Type_ = bot.CmdSuspend ∧
    1 ≤ (bot.ParseCommand "  /suspend bob@example.com ").Args.length ∧
    (bot.ParseCommand "/suspend").Type_ = bot.CmdUnknown ∧
    (bot.ParseCommand "/set max_per_min").Type_ = bot.CmdUnknown ∧
    (bot.ParseCommand "suspend bob@example.com").Type_ = bot.CmdUnknown ∧
    bot.handleCommand (bot.envOf whm.acceptingWorld)
        { bot.ParseCommand "/set max_per_min" with Platform := "slack", UserID := "U1" }
        bot.initialState ≠ none :=
  ⟨by decide,
   (bot.ParseCommand_guarantees_arity "  /suspend bob@example.com ").1 (by decide),
   ((bot.ParseCommand_guarantees_arity "/suspend").2.2.2.1 "/suspend" [] (by decide)).2.1
      (by decide) (by decide),
   ((bot.ParseCommand_guarantees_arity "/set max_per_min").2.2.2.1 "/set" ["max_per_min"]
      (by decide)).2.2.1 rfl (by decide),
   (bot.ParseCommand_guarantees_arity "suspend bob@example.com").2.2.1 (by decide),
   (bot.ParseCommand_guarantees_arity "/set max_per_min").2.2.2.2 _ _ _ rfl rfl⟩
